/-
Verification of the MINT multi-currency ledger and settlement engine.

This file shallowly embeds the money-movement core of the repository in
Lean 4 and settles the frozen claims C1..C10 about it.  Every definition
is translated from the Python source:

  * core/database.py      : wallets table, update_balance, get_balance,
                            ensure_all_currency_wallets, approve_reversal,
                            reject_reversal
  * core/wallet.py        : FXEngine, calculate_fee, ComplianceEngine,
                            WalletService.send_money / convert_currency /
                            deposit / withdraw
  * database_mpesa.py     : mpesa_transactions table, confirm_mpesa_tx,
                            fail_mpesa_tx, expire_stale_mpesa_txs
  * server_mpesa_routes.py: mpesa_callback and _credit_wallet_for_mpesa

Modelling conventions.  SQLite rows become entries of association lists;
an SQL UPDATE maps over all rows matching its WHERE clause, an INSERT
appends at the end of the list, and SELECT ... fetchone() is the first
matching entry.  Python float / Decimal amounts are idealised as exact
rationals (Rat); balances are stored by the code as integer minor units,
which become Int.  Decimal quantize with ROUND_HALF_UP is rounding half
away from zero; Python round() is rounding half to even.  Side tables no
claim mentions (audit_log, notifications, the best-effort blockchain
mirror, fraud flags) and wall-clock columns (updated_at, created_at,
callback_at) are not part of the state; the random FX volatility and the
rate table behind db.get_fx_rate are supplied as explicit oracle inputs
(one engine call with a cold cache); uuid4 values are supplied as the
newTxId input.  Background tasks run to completion synchronously, so one
"delivery" of a provider callback is the HTTP handler together with the
credit task it schedules, and operations are serialised (the sequential
model of the BEGIN IMMEDIATE scopes in the source).
-/
import Mathlib

namespace Mint

/-- Wallet row of the wallets table: integer minor units, a spendable
balance and a locked amount (core/database.py schema). -/
structure Wallet where
  balance : Int
  locked : Int
  deriving DecidableEq, Repr

/-- Key of the wallets table: (user_id, currency). -/
abbrev WKey := String × String

/-- Wallets table: association list of rows in insertion order. -/
abbrev Wallets := List (WKey × Wallet)

/-- Transaction row as stored in the transactions table
(core/database.py): amount and fee in integer minor units. -/
structure TxRow where
  tx_id : String
  sender : String
  recipient : String
  amount : Int
  currency : String
  tx_type : String
  fee : Int
  timestamp : ℚ
  status : String
  deriving DecidableEq, Repr

/-- SELECT ... WHERE user_id=? AND currency=? ... fetchone(): first row
whose key matches. -/
def lookupW : Wallets → WKey → Option Wallet
  | [], _ => none
  | e :: rest, k => if e.1 = k then some e.2 else lookupW rest k

/-- UPDATE wallets SET balance=? WHERE user_id=? AND currency=?
(all rows matching the key receive the new balance; locked_balance is
not touched). -/
def writeBalance (ws : Wallets) (k : WKey) (newBal : Int) : Wallets :=
  ws.map (fun e => if e.1 = k then (e.1, { e.2 with balance := newBal }) else e)

/-- UPDATE wallets SET balance = balance + ? WHERE user_id=? AND
currency=? (each matching row is shifted by the delta), used by the
reversal executor in core/database.py. -/
def addBalanceAll (ws : Wallets) (k : WKey) (delta : Int) : Wallets :=
  ws.map (fun e =>
    if e.1 = k then (e.1, { e.2 with balance := e.2.balance + delta }) else e)

/-- Balance of a wallet row, 0 if the row is absent (used to state
balance-change properties uniformly). -/
def walletBal (ws : Wallets) (k : WKey) : Int :=
  ((lookupW ws k).map (·.balance)).getD 0

/-- update_balance (core/database.py lines 513-537): atomic balance
update; fails (none) when the row is missing or the new balance would
drop below locked_balance, otherwise writes balance + delta. -/
def update_balance (ws : Wallets) (user currency : String) (delta : Int) :
    Option Wallets :=
  match lookupW ws (user, currency) with
  | none => none
  | some row =>
    let locked := row.locked
    let newBalance := row.balance + delta
    if newBalance < locked then none
    else some (writeBalance ws (user, currency) newBalance)

/-- get_balance (core/database.py lines 504-510): spendable balance
(total minus locked, clamped at zero) as major units. -/
def get_balance (ws : Wallets) (user currency : String) : ℚ :=
  match lookupW ws (user, currency) with
  | none => 0
  | some w => (max (w.balance - w.locked) 0 : Int) / 100

/-- SUPPORTED_CURRENCIES from core/wallet.py. -/
def SUPPORTED_CURRENCIES : List String := ["USD", "EUR", "KES", "NGN", "GBP"]

/-- INSERT OR IGNORE of one zero wallet row (ensure_all_currency_wallets
body, core/database.py): appended only when the (user, currency) key is
absent, with balance = 0 and locked_balance = 0. -/
def ensureOneWallet (ws : Wallets) (user currency : String) : Wallets :=
  if (lookupW ws (user, currency)).isSome then ws
  else ws ++ [((user, currency), ⟨0, 0⟩)]

/-- ensure_all_currency_wallets (core/database.py): back-fill a zero
wallet row for every supported currency. -/
def ensure_all_currency_wallets (ws : Wallets) (user : String) : Wallets :=
  SUPPORTED_CURRENCIES.foldl (fun acc c => ensureOneWallet acc user c) ws

/-- Decimal ROUND_HALF_UP of Python (ties away from zero), applied to an
exact rational. -/
def roundHalfAway (q : ℚ) : Int :=
  if q < 0 then -⌊-q + 1/2⌋ else ⌊q + 1/2⌋

/-- to minor units: int((amount * 100).quantize(1, ROUND_HALF_UP))
(core/wallet.py). -/
def toMinor (q : ℚ) : Int := roundHalfAway (q * 100)

/-- Python round() (banker's rounding, ties to even) on an exact
rational, to an integer. -/
def roundHalfEven (q : ℚ) : Int :=
  let f := ⌊q⌋
  let r := q - f
  if r < 1/2 then f
  else if 1/2 < r then f + 1
  else if f % 2 = 0 then f else f + 1

/-- Decimal quantize(10^-p, ROUND_HALF_UP) on an exact rational. -/
def quantizeHalfAway (q : ℚ) (p : Nat) : ℚ :=
  (roundHalfAway (q * 10 ^ p) : ℚ) / 10 ^ p

/-- Python round(x, p) on an exact rational. -/
def pyRound (q : ℚ) (p : Nat) : ℚ :=
  (roundHalfEven (q * 10 ^ p) : ℚ) / 10 ^ p

/-- calculate_fee (core/wallet.py lines 159-178): tiered fee on the
USD-equivalent amount, +0.5 percentage points when cross-border,
zero for non-positive amounts. -/
def calculate_fee (amount_usd : ℚ) (is_cross_border : Bool) : ℚ :=
  if amount_usd ≤ 0 then 0
  else
    let fee_pct : ℚ :=
      if amount_usd < 10 then 5/1000
      else if amount_usd < 100 then 10/1000
      else if amount_usd < 1000 then 15/1000
      else 20/1000
    let fee_pct := if is_cross_border then fee_pct + 5/1000 else fee_pct
    amount_usd * fee_pct

/-- Oracle inputs of FXEngine.get_live_rate for a single call with a
cold cache: the fx_rates table (db.get_fx_rate, rate component) and the
sampled volatility random.uniform(-0.003, 0.003) per ordered pair. -/
structure FxDeps where
  rate : String → String → Option ℚ
  vol : String → String → ℚ

/-- FXEngine.get_live_rate (core/wallet.py lines 90-114): 1.0 for a
pair of equal currencies, else the direct rate or the USD-pivot product,
perturbed by the sampled volatility. -/
def get_live_rate (d : FxDeps) (f t : String) : Option ℚ :=
  if f = t then some 1
  else
    let base : Option ℚ :=
      match d.rate f t with
      | some r => some r
      | none =>
        match d.rate f "USD", d.rate "USD" t with
        | some a, some b => some (a * b)
        | _, _ => none
    base.map (fun r => r * (1 + d.vol f t))

/-- Conversion quote payload (the numeric fields of the dict returned
by FXEngine.get_conversion_quote). -/
structure Quote where
  from_currency : String
  to_currency : String
  from_amount : ℚ
  to_amount : ℚ
  mid_rate : ℚ
  effective_rate : ℚ
  spread_pct : ℚ
  fx_fee : ℚ
  deriving DecidableEq, Repr

/-- FXEngine.get_conversion_quote (core/wallet.py lines 116-142):
spread 1.5 percent, effective rate mid * (1 - spread/200), to_amount
quantized half-up to 4 decimal places, fx_fee quantized half-up to 6
decimal places, reported rates rounded to 6 places by Python round(). -/
def get_conversion_quote (d : FxDeps) (f t : String) (amount : ℚ) : Option Quote :=
  match get_live_rate d f t with
  | none => none
  | some mid =>
    let spread_pct : ℚ := 3/2
    let effective_rate := mid * (1 - spread_pct / 200)
    let to_amount := quantizeHalfAway (amount * effective_rate) 4
    let fx_fee := quantizeHalfAway (amount * (spread_pct / 200)) 6
    some { from_currency := f, to_currency := t, from_amount := amount,
           to_amount := to_amount, mid_rate := pyRound mid 6,
           effective_rate := pyRound effective_rate 6,
           spread_pct := spread_pct, fx_fee := fx_fee }

/-- Hydrated transaction as returned by db.get_user_transactions
(core/database.py _hydrate_txs): amount and fee divided by 100. -/
structure HTx where
  tx_id : String
  sender : String
  recipient : String
  amount : ℚ
  currency : String
  tx_type : String
  fee : ℚ
  timestamp : ℚ
  status : String
  deriving DecidableEq, Repr

/-- db._hydrate_txs on one row. -/
def hydrate (r : TxRow) : HTx :=
  ⟨r.tx_id, r.sender, r.recipient, (r.amount : ℚ) / 100, r.currency,
   r.tx_type, (r.fee : ℚ) / 100, r.timestamp, r.status⟩

/-- db.get_user_transactions(user_id, limit=200): rows where the user is
sender or recipient, newest first, at most 200, hydrated. -/
def get_user_transactions (txs : List TxRow) (user : String) : List HTx :=
  ((((txs.filter (fun r => decide (r.sender = user ∨ r.recipient = user))).mergeSort
      (fun a b => decide (b.timestamp ≤ a.timestamp))).take 200).map hydrate)

/-- User directory row (the fields of the users table the engine
reads). -/
structure UserRec where
  user_id : String
  name : String
  base_country : String
  is_suspended : Bool
  deriving DecidableEq, Repr

/-- ComplianceEngine.SANCTIONS_LIST (core/wallet.py). -/
def SANCTIONS_LIST : List String := ["blocked_user_001", "blocked_user_002"]

/-- DAILY_LIMIT_USD (core/wallet.py). -/
def DAILY_LIMIT_USD : ℚ := 5000

/-- TX_LIMIT_USD (core/wallet.py). -/
def TX_LIMIT_USD : ℚ := 2000

/-- Environment read by ComplianceEngine.check_transaction: the user
directory and the current time. -/
structure ComplianceDeps where
  userById : String → Option UserRec
  now : ℚ

/-- The trailing-24h outbound rows in the structuring band of rule 5 of
ComplianceEngine.check_transaction: sender matches and the raw
transaction amount (major units of its own currency after hydration)
lies in [900, 1000]. -/
def structuringRows (now : ℚ) (txs : List HTx) (user : String) : List HTx :=
  txs.filter (fun tx => decide (now - 86400 < tx.timestamp ∧ tx.sender = user ∧
    900 ≤ tx.amount ∧ tx.amount ≤ 1000))

/-- ComplianceEngine.check_transaction (core/wallet.py lines 190-233):
sanctions, suspension, per-transaction limit, daily limit, structuring,
velocity, in this order; first denial wins.  The code queries
db.get_user_transactions itself; here the hydrated rows are passed in
(send_money supplies get_user_transactions of the ledger state).  The
is_cross_border argument is accepted and, as in the code, unused. -/
def check_transaction (d : ComplianceDeps) (txs : List HTx) (user_id : String)
    (amount_usd : ℚ) (recipient_id : String) (_is_cross_border : Bool) :
    Bool × String :=
  if user_id ∈ SANCTIONS_LIST ∨ recipient_id ∈ SANCTIONS_LIST then
    (false, "Transaction blocked: sanctions screening")
  else if (match d.userById user_id with
           | some u => u.is_suspended
           | none => false) then
    (false, "Account suspended. Contact support.")
  else if TX_LIMIT_USD < amount_usd then
    (false, "Exceeds single transaction limit")
  else
    let daily_total :=
      ((txs.filter (fun tx =>
          decide (d.now - 86400 < tx.timestamp ∧ tx.sender = user_id))).map
        (fun tx => tx.amount)).sum
    if DAILY_LIMIT_USD < daily_total + amount_usd then
      (false, "Exceeds daily limit")
    else if 3 ≤ (structuringRows d.now txs user_id).length then
      (false, "Suspicious activity detected: transaction structuring")
    else if 10 ≤ (txs.filter (fun tx =>
        decide (d.now - 3600 < tx.timestamp ∧ tx.sender = user_id))).length then
      (false, "Rate limit: too many transactions")
    else (true, "OK")

/-- mpesa_transactions row (database_mpesa.py schema), minus audit-only
columns (merchant_request_id, raw_callback, initiated_at,
callback_at). -/
structure MTx where
  internal_ref : String
  user_id : String
  phone : String
  amount_kes : Int
  checkout_request_id : Option String
  status : String
  result_code : Option Int
  result_desc : Option String
  mpesa_receipt : Option String
  mpesa_phone : Option String
  wallet_credited : Bool
  chainpay_tx_id : Option String
  expires_at : ℚ
  deriving DecidableEq, Repr

/-- reversal_requests row (database_mpesa.py / core/database.py
schema), minus timestamp columns. -/
structure RevRow where
  reversal_id : String
  tx_id : String
  requester_id : String
  reason : String
  status : String
  admin_id : Option String
  admin_note : Option String
  deriving DecidableEq, Repr

/-- The persistent state of the engine: the four tables the claims are
about. -/
structure St where
  wallets : Wallets
  txs : List TxRow
  mpesa : List MTx
  reversals : List RevRow
  deriving DecidableEq, Repr

/-- External collaborators and generated values consumed by one engine
operation: the phone and id user directories, the FX oracle, the clock
and the uuid4 value for a freshly inserted transaction row. -/
structure SendDeps where
  userByPhone : String → Option UserRec
  userById : String → Option UserRec
  fx : FxDeps
  now : ℚ
  newTxId : String

/-- Result of a WalletService operation: the (ok, message, data) triple
collapsed to the fields the claims mention. -/
inductive SendOutcome where
  | failure (msg : String)
  | success (tx_id : String) (amount fee total : ℚ)
  deriving DecidableEq, Repr

/-- WalletService.send_money (core/wallet.py lines 244-395).  Stage
order as in the source: positivity, supported currency, recipient
lookup, self-send guard, recipient wallet back-fill, recipient wallet
check, spendable balance vs amount, USD conversion (Python truthiness:
a rate of 0.0 counts as unavailable), sender directory lookup,
compliance, fee with the 0.01 floor, spendable balance vs amount+fee,
then the atomic debit/credit/insert scope.  Failures after the wallet
back-fill keep the back-filled rows (they were committed by a separate
connection); the atomic scope itself rolls back as a unit. -/
def send_money (d : SendDeps) (st : St) (sender_id recipient_phone : String)
    (amount : ℚ) (currency : String) : SendOutcome × St :=
  if amount ≤ 0 then (.failure "Amount must be positive", st)
  else if ¬ currency ∈ SUPPORTED_CURRENCIES then
    (.failure "Unsupported currency", st)
  else
    match d.userByPhone recipient_phone with
    | none => (.failure "Recipient not found", st)
    | some recipient =>
      if recipient.user_id = sender_id then (.failure "Cannot send to yourself", st)
      else
        let st1 := { st with
          wallets := ensure_all_currency_wallets st.wallets recipient.user_id }
        match lookupW st1.wallets (recipient.user_id, currency) with
        | none => (.failure "Recipient has no wallet", st1)
        | some _ =>
          let balance := get_balance st1.wallets sender_id currency
          if balance < amount then (.failure "Insufficient balance", st1)
          else
            let rateOpt : Option ℚ :=
              if currency = "USD" then some 1
              else
                match get_live_rate d.fx currency "USD" with
                | none => none
                | some r => if r = 0 then none else some r
            match rateOpt with
            | none => (.failure "FX rate unavailable", st1)
            | some rate_to_usd =>
              let amount_usd := amount * rate_to_usd
              match d.userById sender_id with
              | none => (.failure "Sender not found", st1)
              | some sender =>
                let is_cross_border :=
                  ¬ sender.base_country = recipient.base_country
                let chk := check_transaction ⟨d.userById, d.now⟩
                  (get_user_transactions st1.txs sender_id) sender_id
                  amount_usd recipient.user_id is_cross_border
                if chk.1 then
                  let fee_usd := calculate_fee amount_usd is_cross_border
                  let fee :=
                    if 0 < fee_usd then max (fee_usd / rate_to_usd) (1/100) else 0
                  let total_debit := amount + fee
                  if balance < total_debit then
                    (.failure "Insufficient funds including fee", st1)
                  else
                    let total_minor := toMinor total_debit
                    let amount_minor := toMinor amount
                    let fee_minor := toMinor fee
                    match update_balance st1.wallets sender_id currency (-total_minor) with
                    | none => (.failure "Debit failed - insufficient balance", st1)
                    | some ws2 =>
                      match update_balance ws2 recipient.user_id currency amount_minor with
                      | none => (.failure "Credit failed - recipient wallet error", st1)
                      | some ws3 =>
                        let row : TxRow :=
                          ⟨d.newTxId, sender_id, recipient.user_id, amount_minor,
                           currency, "SEND", fee_minor, d.now, "CONFIRMED"⟩
                        (.success d.newTxId amount fee total_debit,
                         { st1 with wallets := ws3, txs := st1.txs ++ [row] })
                else (.failure chk.2, st1)

/-- WalletService.deposit (core/wallet.py lines 537-584): positivity,
the 10,000 single-deposit ceiling, supported currency, wallet
back-fill, atomic credit, DEPOSIT row. -/
def deposit (d : SendDeps) (st : St) (user_id : String) (amount : ℚ)
    (currency : String) : SendOutcome × St :=
  if amount ≤ 0 then (.failure "Amount must be positive", st)
  else if 10000 < amount then (.failure "Single deposit limit: 10,000 equivalent", st)
  else if ¬ currency ∈ SUPPORTED_CURRENCIES then
    (.failure "Unsupported currency", st)
  else
    let st1 := { st with
      wallets := ensure_all_currency_wallets st.wallets user_id }
    let minor := toMinor amount
    match update_balance st1.wallets user_id currency minor with
    | none => (.failure "Deposit failed - wallet not found", st1)
    | some ws2 =>
      let row : TxRow :=
        ⟨d.newTxId, "SYSTEM", user_id, minor, currency, "DEPOSIT", 0, d.now,
         "CONFIRMED"⟩
      (.success d.newTxId amount 0 amount,
       { st1 with wallets := ws2, txs := st1.txs ++ [row] })

/-- WalletService.withdraw (core/wallet.py lines 586-640): positivity,
supported currency, spendable balance vs amount, fee like send (rate or
1.0 fallback, 0.01 floor), spendable balance vs amount+fee, atomic
debit, WITHDRAW row. -/
def withdraw (d : SendDeps) (st : St) (user_id : String) (amount : ℚ)
    (currency : String) : SendOutcome × St :=
  if amount ≤ 0 then (.failure "Amount must be positive", st)
  else if ¬ currency ∈ SUPPORTED_CURRENCIES then
    (.failure "Unsupported currency", st)
  else
    let balance := get_balance st.wallets user_id currency
    if balance < amount then (.failure "Insufficient balance", st)
    else
      let rate_to_usd : ℚ :=
        match get_live_rate d.fx currency "USD" with
        | none => 1
        | some r => if r = 0 then 1 else r
      let amount_usd := amount * rate_to_usd
      let fee_usd := calculate_fee amount_usd false
      let fee := if 0 < fee_usd then max (fee_usd / rate_to_usd) (1/100) else 0
      let total := amount + fee
      if balance < total then
        (.failure "Insufficient funds including withdrawal fee", st)
      else
        match update_balance st.wallets user_id currency (-(toMinor total)) with
        | none => (.failure "Withdrawal failed", st)
        | some ws2 =>
          let row : TxRow :=
            ⟨d.newTxId, user_id, "SYSTEM", toMinor amount, currency, "WITHDRAW",
             toMinor fee, d.now, "CONFIRMED"⟩
          (.success d.newTxId amount fee total,
           { st with wallets := ws2, txs := st.txs ++ [row] })

/-- WalletService.convert_currency (core/wallet.py lines 397-535):
distinct supported currencies, positivity, wallet back-fill, advisory
spendable check, quote, then the atomic scope that re-reads the source
wallet, re-checks spendable funds, debits the source, credits the
target and inserts the FX_CONVERT row; every failure inside the scope
rolls the whole scope back. -/
def convert_currency (d : SendDeps) (st : St) (user_id from_ccy to_ccy : String)
    (amount : ℚ) : SendOutcome × St :=
  if from_ccy = to_ccy then (.failure "Cannot convert same currency", st)
  else if amount ≤ 0 then (.failure "Amount must be positive", st)
  else if ¬ from_ccy ∈ SUPPORTED_CURRENCIES then
    (.failure "Unsupported source currency", st)
  else if ¬ to_ccy ∈ SUPPORTED_CURRENCIES then
    (.failure "Unsupported target currency", st)
  else
    let st1 := { st with
      wallets := ensure_all_currency_wallets st.wallets user_id }
    let balance := get_balance st1.wallets user_id from_ccy
    if balance < amount then (.failure "Insufficient balance", st1)
    else
      match get_conversion_quote d.fx from_ccy to_ccy amount with
      | none => (.failure "FX rate not available", st1)
      | some quote =>
        let from_minor := toMinor amount
        let to_minor := toMinor quote.to_amount
        let fee_minor := toMinor quote.fx_fee
        match lookupW st1.wallets (user_id, from_ccy) with
        | none => (.failure "Source wallet not found", st1)
        | some srcRow =>
          if srcRow.balance - srcRow.locked < from_minor then
            (.failure "Insufficient balance inside transaction", st1)
          else
            let ws2 := writeBalance st1.wallets (user_id, from_ccy)
              (srcRow.balance - from_minor)
            match lookupW ws2 (user_id, to_ccy) with
            | none => (.failure "Target wallet not found", st1)
            | some tgtRow =>
              let ws3 := writeBalance ws2 (user_id, to_ccy)
                (tgtRow.balance + to_minor)
              let row : TxRow :=
                ⟨d.newTxId, user_id, user_id, from_minor, from_ccy,
                 "FX_CONVERT", fee_minor, d.now, "CONFIRMED"⟩
              (.success d.newTxId amount quote.fx_fee quote.to_amount,
               { st1 with wallets := ws3, txs := st1.txs ++ [row] })

/-- Result of the admin reversal helpers of core/database.py: success
carries the uuid of the inserted REVERSAL row when one exists. -/
inductive RevOutcome where
  | ok (reversal_tx_id : Option String)
  | failure (msg : String)
  deriving DecidableEq, Repr

/-- approve_reversal (core/database.py lines 976-1060): in one BEGIN
IMMEDIATE scope, select the PENDING reversal joined with its
transaction, require both wallets, require the raw recipient balance to
cover the amount, credit the sender, debit the recipient, insert the
REVERSAL row, mark the original transaction REVERSED and the reversal
APPROVED.  Any failure rolls back, leaving the state unchanged. -/
def approve_reversal (d : SendDeps) (st : St) (reversal_id admin_id note : String) :
    RevOutcome × St :=
  match st.reversals.find?
      (fun r => decide (r.reversal_id = reversal_id ∧ r.status = "PENDING")) with
  | none => (.failure "Reversal request not found", st)
  | some rev =>
    match st.txs.find? (fun t => decide (t.tx_id = rev.tx_id)) with
    | none => (.failure "Reversal request not found", st)
    | some t =>
      match lookupW st.wallets (t.sender, t.currency),
            lookupW st.wallets (t.recipient, t.currency) with
      | none, _ => (.failure "Wallet not found", st)
      | some _, none => (.failure "Wallet not found", st)
      | some _, some recipient_bal =>
        if recipient_bal.balance < t.amount then
          (.failure "Recipient has insufficient funds for reversal", st)
        else
          let ws1 := addBalanceAll st.wallets (t.sender, t.currency) t.amount
          let ws2 := addBalanceAll ws1 (t.recipient, t.currency) (-t.amount)
          let revRow : TxRow :=
            ⟨d.newTxId, t.recipient, t.sender, t.amount, t.currency, "REVERSAL",
             0, d.now, "CONFIRMED"⟩
          let txs2 := (st.txs ++ [revRow]).map
            (fun r => if r.tx_id = rev.tx_id then { r with status := "REVERSED" } else r)
          let rvs2 := st.reversals.map
            (fun r => if r.reversal_id = reversal_id then
              { r with
                status := "APPROVED",
                admin_id := some admin_id,
                admin_note := some note } else r)
          (.ok (some d.newTxId), { st with wallets := ws2, txs := txs2, reversals := rvs2 })

/-- reject_reversal (core/database.py lines 1063-1097): mark the PENDING
reversal REJECTED and (unconditionally) re-mark its transaction
CONFIRMED; no balance effect. -/
def reject_reversal (st : St) (reversal_id admin_id note : String) :
    RevOutcome × St :=
  match st.reversals.find?
      (fun r => decide (r.reversal_id = reversal_id ∧ r.status = "PENDING")) with
  | none => (.failure "Reversal request not found", st)
  | some rev =>
    let rvs2 := st.reversals.map
      (fun r => if r.reversal_id = reversal_id then
        { r with
          status := "REJECTED",
          admin_id := some admin_id,
          admin_note := some note } else r)
    let txs2 := st.txs.map
      (fun r => if r.tx_id = rev.tx_id then { r with status := "CONFIRMED" } else r)
    (.ok none, { st with reversals := rvs2, txs := txs2 })

/-- Normalised result of mpesa.process_callback on a parsed callback
body. -/
structure ParsedCallback where
  checkout_request_id : String
  success : Bool
  result_code : Int
  result_desc : String
  amount : ℚ
  receipt_number : String
  phone : String
  deriving DecidableEq, Repr

/-- fail_mpesa_tx (database_mpesa.py lines 191-206): UPDATE by
internal_ref, unconditionally setting status FAILED and the result
fields. -/
def fail_mpesa_tx (st : St) (internal_ref : String) (result_code : Int)
    (result_desc : String) : St :=
  { st with mpesa := st.mpesa.map (fun m =>
      if m.internal_ref = internal_ref then
        { m with
          status := "FAILED",
          result_code := some result_code,
          result_desc := some result_desc }
      else m) }

/-- confirm_mpesa_tx (database_mpesa.py lines 168-189): UPDATE by
internal_ref, unconditionally setting status CONFIRMED, the result
fields, the receipt, wallet_credited and the linked transaction id (the
amount_kes argument is accepted and, as in the code, unused). -/
def confirm_mpesa_tx (st : St) (internal_ref : String) (result_code : Int)
    (result_desc : String) (_amount_kes : ℚ) (receipt mpesa_phone
    chainpay_tx_id : String) : St :=
  { st with mpesa := st.mpesa.map (fun m =>
      if m.internal_ref = internal_ref then
        { m with
          status := "CONFIRMED",
          result_code := some result_code,
          result_desc := some result_desc,
          mpesa_receipt := some receipt,
          mpesa_phone := some mpesa_phone,
          wallet_credited := true,
          chainpay_tx_id := some chainpay_tx_id }
      else m) }

/-- expire_stale_mpesa_txs (database_mpesa.py lines 209-219): every
PENDING row past its expiry becomes EXPIRED; no other row is touched. -/
def expire_stale_mpesa_txs (st : St) (now : ℚ) : St :=
  { st with mpesa := st.mpesa.map (fun m =>
      if m.status = "PENDING" ∧ m.expires_at < now then { m with status := "EXPIRED" }
      else m) }

/-- mpesa_callback (server_mpesa_routes.py lines 188-269) together with
the background task _credit_wallet_for_mpesa (lines 272-341) run to
completion: ignore a missing CheckoutRequestID, an unknown record, a
non-PENDING record or a duplicate receipt; a failed result marks the
record FAILED; an amount outside the 1 KES tolerance marks it FAILED
with code -98; otherwise the wallet is credited through
WalletService.deposit and the record is marked CONFIRMED, or FAILED
with code -97 when the credit is refused. -/
def mpesa_callback (d : SendDeps) (st : St) (cb : ParsedCallback) : St :=
  if cb.checkout_request_id = "" then st
  else
    match st.mpesa.find?
        (fun m => decide (m.checkout_request_id = some cb.checkout_request_id)) with
    | none => st
    | some record =>
      if ¬ record.status = "PENDING" then st
      else if ¬ cb.success then
        fail_mpesa_tx st record.internal_ref cb.result_code cb.result_desc
      else if ¬ cb.receipt_number = "" ∧
          (st.mpesa.find? (fun m => decide (m.mpesa_receipt = some cb.receipt_number))).isSome then
        st
      else
        let expected_kes : ℚ := (record.amount_kes : ℚ) / 100
        if 1 < |cb.amount - expected_kes| then
          fail_mpesa_tx st record.internal_ref (-98) "Amount mismatch"
        else
          match deposit d st record.user_id cb.amount "KES" with
          | (.failure msg, st2) =>
            fail_mpesa_tx st2 record.internal_ref (-97)
              (String.append "Wallet credit failed: " msg)
          | (.success tx_id _ _ _, st2) =>
            confirm_mpesa_tx st2 record.internal_ref cb.result_code cb.result_desc
              cb.amount cb.receipt_number cb.phone tx_id

/-- Claim statement helper: the failure condition of update_balance as
the specification words it. -/
def updateBalanceSpecFails (ws : Wallets) (user currency : String) (delta : Int) : Prop :=
  lookupW ws (user, currency) = none ∨
    ∃ w, lookupW ws (user, currency) = some w ∧ w.balance + delta - w.locked < 0

instance (ws : Wallets) (u c : String) (d : Int) :
    Decidable (updateBalanceSpecFails ws u c d) := by
  unfold updateBalanceSpecFails
  infer_instance

/-- All wallet rows created by the code: locked_balance 0 and a
nonnegative balance.  This is the shape of every state the engine can
generate (no code path ever writes a nonzero locked_balance). -/
def WalletsOK (ws : Wallets) : Prop :=
  ∀ e ∈ ws, e.2.locked = 0 ∧ 0 ≤ e.2.balance

/-- All stored transaction amounts are nonnegative (every inserted row
carries a rounded positive amount). -/
def TxsOK (txs : List TxRow) : Prop := ∀ r ∈ txs, 0 ≤ r.amount

/-- Well-formedness of a committed state: wallet keys unique (the
UNIQUE(user_id, currency) constraint), zero locked balances with
nonnegative balances, nonnegative transaction amounts. -/
def StateOK (st : St) : Prop :=
  (st.wallets.map Prod.fst).Nodup ∧ WalletsOK st.wallets ∧ TxsOK st.txs

/-- The per-wallet invariant of the specification: balance at or above
locked_balance. -/
def WalletsInv (ws : Wallets) : Prop :=
  ∀ e ∈ ws, e.2.locked ≤ e.2.balance

/-- Example USD-equivalent rate table for the structuring
counterexample: EUR trades at 1.08 USD, every other currency at 1. -/
def exampleUsdRate : String → ℚ := fun c => if c = "EUR" then 27/25 else 1

/-- Example history for the structuring counterexample: three outbound
SEND rows of 880 EUR each (USD equivalent 950.40) within the trailing
24 hours of now = 2000. -/
def exampleEuroSends : List HTx :=
  [⟨"t1", "alice", "u1", 880, "EUR", "SEND", 0, 1000, "CONFIRMED"⟩,
   ⟨"t2", "alice", "u2", 880, "EUR", "SEND", 0, 1100, "CONFIRMED"⟩,
   ⟨"t3", "alice", "u3", 880, "EUR", "SEND", 0, 1200, "CONFIRMED"⟩]

/-- Example dependency bundle with empty directories and rate table. -/
def noDeps : SendDeps :=
  ⟨fun _ => none, fun _ => none, ⟨fun _ _ => none, fun _ _ => 0⟩, 0, "tx-new"⟩

/-- Example directory for send scenarios: Bob reachable by phone, Alice
by id, both in the same country (non-cross-border). -/
def sendExDeps : SendDeps :=
  ⟨fun p => if p = "bob_phone" then some ⟨"bob", "Bob", "KE", false⟩ else none,
   fun u => if u = "alice" then some ⟨"alice", "Alice", "KE", false⟩ else none,
   ⟨fun _ _ => none, fun _ _ => 0⟩, 0, "txA"⟩

/-- Example ledger for send scenarios: Alice holds 100.00 USD, Bob
0.00 USD. -/
def sendExSt : St :=
  ⟨[(("alice", "USD"), ⟨10000, 0⟩), (("bob", "USD"), ⟨0, 0⟩)], [], [], []⟩

/-- Example empty state. -/
def emptySt : St := ⟨[], [], [], []⟩

/-- Example state for the reversal counterexample: a CONFIRMED 50.00
USD SEND from Alice to Bob, a PENDING reversal for it, and Bob holding
100.00 USD of which 80.00 is locked (spendable 20.00 < 50.00). -/
def revExSt : St :=
  ⟨[(("bob", "USD"), ⟨10000, 8000⟩), (("alice", "USD"), ⟨0, 0⟩)],
   [⟨"tx1", "alice", "bob", 5000, "USD", "SEND", 50, 0, "CONFIRMED"⟩],
   [],
   [⟨"rev1", "tx1", "alice", "wrong recipient", "PENDING", none, none⟩]⟩

/-- Example state for a successful reversal: as revExSt but with
nothing locked. -/
def revOkSt : St :=
  ⟨[(("bob", "USD"), ⟨10000, 0⟩), (("alice", "USD"), ⟨0, 0⟩)],
   [⟨"tx1", "alice", "bob", 5000, "USD", "SEND", 50, 0, "CONFIRMED"⟩],
   [],
   [⟨"rev1", "tx1", "alice", "wrong recipient", "PENDING", none, none⟩]⟩

/-- Example state with one CONFIRMED (terminal) settlement record. -/
def mpesaExSt : St :=
  ⟨[], [],
   [⟨"ref1", "alice", "+254700000001", 50000, some "CK1", "CONFIRMED", some 0,
     some "ok", some "RCPT1", some "+254700000001", true, some "txZ", 120⟩], []⟩

/-- Example state with a PENDING settlement of 20,000 KES (above the
internal 10,000 deposit ceiling) and an empty KES wallet. -/
def mpesaBigSt : St :=
  ⟨[(("carol", "KES"), ⟨0, 0⟩)], [],
   [⟨"ref2", "carol", "+254700000002", 2000000, some "CK2", "PENDING", none,
     none, none, none, false, none, 120⟩], []⟩

/-- Example callback for the 20,000 KES settlement. -/
def bigCb : ParsedCallback := ⟨"CK2", true, 0, "ok", 20000, "RCPT9", "+254700000002"⟩

/-- Example state with a PENDING settlement of 500 KES for a user with
no wallet rows yet. -/
def mpesaOkSt : St :=
  ⟨[], [],
   [⟨"ref3", "dave", "+254700000003", 50000, some "CK3", "PENDING", none,
     none, none, none, false, none, 120⟩], []⟩

/-- Example callback for the 500 KES settlement. -/
def okCb : ParsedCallback := ⟨"CK3", true, 0, "ok", 500, "RCPT3", "+254700000003"⟩

end Mint

namespace Mint

/-- Reading the written key after writeBalance yields the written
balance with the old locked amount. -/
theorem lookupW_writeBalance_self {ws : Wallets} {k : WKey} {w : Wallet}
    (h : lookupW ws k = some w) (b : Int) :
    lookupW (writeBalance ws k b) k = some { w with balance := b } := by
  induction ws with
  | nil => simp [lookupW] at h
  | cons e rest ih =>
    by_cases he : e.1 = k
    · simp only [lookupW, writeBalance, List.map_cons, if_pos he,
        Option.some.injEq] at h ⊢
      simp [h]
    · simp only [lookupW, writeBalance, List.map_cons, if_neg he] at h ⊢
      exact ih h

/-- writeBalance leaves every other key unchanged. -/
theorem lookupW_writeBalance_ne (ws : Wallets) {k k2 : WKey} (hk : k2 ≠ k) (b : Int) :
    lookupW (writeBalance ws k b) k2 = lookupW ws k2 := by
  induction ws with
  | nil => simp [lookupW, writeBalance]
  | cons e rest ih =>
    by_cases he : e.1 = k
    · have hne : ¬ (e.1 = k2) := by rw [he]; exact fun h => hk h.symm
      simp only [lookupW, writeBalance, List.map_cons, if_pos he, if_neg hne]
      exact ih
    · by_cases hek : e.1 = k2
      · simp [lookupW, writeBalance, if_neg he, if_pos hek]
      · simp only [lookupW, writeBalance, List.map_cons, if_neg he, if_neg hek]
        exact ih

/-- Success equation of update_balance when the row exists and the new
balance stays at or above the locked amount. -/
theorem update_balance_eq_of_ok {ws : Wallets} {u c : String} {w : Wallet}
    (hw : lookupW ws (u, c) = some w) {d : Int}
    (hge : ¬ (w.balance + d < w.locked)) :
    update_balance ws u c d = some (writeBalance ws (u, c) (w.balance + d)) := by
  unfold update_balance
  rw [hw]
  exact if_neg hge

/-- C3: update_balance fails exactly when the row is missing or
balance + delta - locked_balance < 0; on failure nothing is mutated
(none is returned and the caller keeps its state); on success the new
balance is balance + delta with locked_balance unchanged and every
other wallet row untouched. -/
theorem update_balance_contract (ws : Wallets) (u c : String) (d : Int) :
    (update_balance ws u c d = none ↔ updateBalanceSpecFails ws u c d) ∧
    (∀ w, lookupW ws (u, c) = some w → ¬ updateBalanceSpecFails ws u c d →
      ∃ ws2, update_balance ws u c d = some ws2 ∧
        lookupW ws2 (u, c) = some ⟨w.balance + d, w.locked⟩ ∧
        ∀ k, k ≠ (u, c) → lookupW ws2 k = lookupW ws k) := by
  constructor
  · unfold update_balance updateBalanceSpecFails
    cases h : lookupW ws (u, c) with
    | none => simp
    | some w =>
      simp only [Option.some.injEq]
      constructor
      · intro hnone
        split at hnone
        · rename_i hlt
          exact Or.inr ⟨w, rfl, by omega⟩
        · exact absurd hnone (by simp)
      · rintro (hcontra | ⟨w2, hw2, hlt⟩)
        · exact absurd hcontra (by simp)
        · cases hw2
          rw [if_pos (by omega)]
  · intro w hw hnot
    unfold updateBalanceSpecFails at hnot
    push_neg at hnot
    obtain ⟨-, hfail⟩ := hnot
    have hge : ¬ (w.balance + d < w.locked) := by
      have := hfail w hw
      omega
    refine ⟨writeBalance ws (u, c) (w.balance + d), update_balance_eq_of_ok hw hge, ?_, ?_⟩
    · exact lookupW_writeBalance_self hw _
    · intro k hk
      exact lookupW_writeBalance_ne ws hk _

/-- Witness for C3: a concrete wallet (10 minor units, 4 locked); a
debit of 7 fails as 10 - 7 < 4, a debit of 6 succeeds and leaves
balance 4 and locked 4. -/
theorem update_balance_contract_witness :
    update_balance [(("alice", "USD"), ⟨10, 4⟩)] "alice" "USD" (-7) = none ∧
    update_balance [(("alice", "USD"), ⟨10, 4⟩)] "alice" "USD" (-6) =
      some [(("alice", "USD"), ⟨4, 4⟩)] := by
  have h := update_balance_contract [(("alice", "USD"), ⟨10, 4⟩)] "alice" "USD" (-7)
  refine ⟨h.1.mpr ?_, by decide⟩
  exact Or.inr ⟨⟨10, 4⟩, by decide, by decide⟩

/-- C10: get_balance returns max(balance - locked_balance, 0) / 100, is
never negative even when the stored balance has fallen below the locked
amount (the violation is silently clamped to zero), and returns 0 when
no wallet row exists for the key. -/
theorem get_balance_spec (ws : Wallets) (u c : String) :
    0 ≤ get_balance ws u c ∧
    (lookupW ws (u, c) = none → get_balance ws u c = 0) ∧
    (∀ w, lookupW ws (u, c) = some w →
      get_balance ws u c = (max (w.balance - w.locked) 0 : Int) / 100) ∧
    (∀ w, lookupW ws (u, c) = some w → w.balance < w.locked →
      get_balance ws u c = 0) := by
  refine ⟨?_, ?_, ?_, ?_⟩
  · unfold get_balance
    cases h : lookupW ws (u, c) with
    | none => simp
    | some w =>
      have : (0 : Int) ≤ max (w.balance - w.locked) 0 := le_max_right _ _
      positivity
  · intro h
    unfold get_balance
    rw [h]
  · intro w h
    unfold get_balance
    rw [h]
  · intro w h hlt
    unfold get_balance
    rw [h]
    show (((w.balance - w.locked) ⊔ 0 : Int) : ℚ) / 100 = 0
    have hmax : (w.balance - w.locked) ⊔ 0 = (0 : Int) := by omega
    rw [hmax]
    norm_num

/-- Witness for C10: a wallet whose balance 50 sits below its locked
amount 80 reads as spendable 0, and a missing row also reads as 0. -/
theorem get_balance_spec_witness :
    get_balance [(("bob", "USD"), ⟨50, 80⟩)] "bob" "USD" = 0 ∧
    get_balance [(("bob", "USD"), ⟨50, 80⟩)] "bob" "KES" = 0 := by
  constructor
  · exact (get_balance_spec [(("bob", "USD"), ⟨50, 80⟩)] "bob" "USD").2.2.2
      ⟨50, 80⟩ (by decide) (by decide)
  · exact (get_balance_spec [(("bob", "USD"), ⟨50, 80⟩)] "bob" "KES").2.1 (by decide)

/-- Falsifies C9 as frozen: for the pair (USD, USD) — mid rate exactly
1 — and amount 0.03, the returned to_amount is 0.0298 (quantized half-up
to 4 decimal places) while amount times the returned effective rate is
0.029775, so toAmount = amount x effectiveRate fails. -/
theorem get_quote_exact_product_counterexample :
    get_conversion_quote ⟨fun _ _ => none, fun _ _ => 0⟩ "USD" "USD" (3/100) =
      some ⟨"USD", "USD", 3/100, 149/5000, 1, 397/400, 3/2, 9/40000⟩ ∧
    (149/5000 : ℚ) ≠ (3/100) * (397/400) := by
  constructor
  · have hmid : get_live_rate ⟨fun _ _ => none, fun _ _ => 0⟩ "USD" "USD" = some 1 := by
      unfold get_live_rate
      rw [if_pos rfl]
    unfold get_conversion_quote
    rw [hmid]
    have h1 : quantizeHalfAway ((3/100) * ((1 : ℚ) * (1 - (3/2) / 200))) 4 = 149/5000 := by
      unfold quantizeHalfAway roundHalfAway
      rw [if_neg (by norm_num)]
      have : ((3:ℚ)/100 * (1 * (1 - 3/2 / 200)) * 10 ^ 4 + 1/2) = 1193/4 := by norm_num
      rw [this, show ⌊(1193/4 : ℚ)⌋ = 298 from by rw [Int.floor_eq_iff]; norm_num]
      norm_num
    have h2 : quantizeHalfAway ((3/100) * ((3/2 : ℚ) / 200)) 6 = 9/40000 := by
      unfold quantizeHalfAway roundHalfAway
      rw [if_neg (by norm_num)]
      have : ((3:ℚ)/100 * (3/2 / 200) * 10 ^ 6 + 1/2) = 451/2 := by norm_num
      rw [this, show ⌊(451/2 : ℚ)⌋ = 225 from by rw [Int.floor_eq_iff]; norm_num]
      norm_num
    have h3 : pyRound (1 : ℚ) 6 = 1 := by
      unfold pyRound roundHalfEven
      norm_num
    have h4 : pyRound ((1 : ℚ) * (1 - (3/2) / 200)) 6 = 397/400 := by
      unfold pyRound roundHalfEven
      have : ((1:ℚ) * (1 - 3/2 / 200) * 10 ^ 6) = 992500 := by norm_num
      rw [this]
      norm_num
    simp only [h1, h2, h3, h4]
  · norm_num

/-- C9 amended: getQuote returns None exactly when no rate (direct or
via the USD pivot) can be resolved and the currencies differ; when a mid
rate mid is resolved, the quote carries spreadPct = 1.5,
effectiveRate and midRate rounded to 6 decimal places by Python round(),
toAmount = amount x (mid x (1 - spreadPct/200)) quantized half-up to 4
decimal places, and fxFee = amount x (spreadPct/200) quantized half-up
to 6 decimal places (the frozen claim omitted the quantization steps,
see the counterexample). -/
theorem get_quote_spec (d : FxDeps) (f t : String) (amount : ℚ) :
    (get_conversion_quote d f t amount = none ↔
      f ≠ t ∧ d.rate f t = none ∧ (d.rate f "USD" = none ∨ d.rate "USD" t = none)) ∧
    (∀ mid, get_live_rate d f t = some mid →
      get_conversion_quote d f t amount =
        some { from_currency := f, to_currency := t, from_amount := amount,
               to_amount := quantizeHalfAway (amount * (mid * (1 - (3/2) / 200))) 4,
               mid_rate := pyRound mid 6,
               effective_rate := pyRound (mid * (1 - (3/2) / 200)) 6,
               spread_pct := 3/2,
               fx_fee := quantizeHalfAway (amount * ((3/2) / 200)) 6 }) := by
  constructor
  · have hnone : get_conversion_quote d f t amount = none ↔ get_live_rate d f t = none := by
      unfold get_conversion_quote
      cases get_live_rate d f t <;> simp
    rw [hnone]
    unfold get_live_rate
    by_cases hft : f = t
    · simp [hft]
    · rw [if_neg hft]
      cases h1 : d.rate f t with
      | some r => simp [hft, h1]
      | none =>
        cases h2 : d.rate f "USD" with
        | some a =>
          cases h3 : d.rate "USD" t with
          | some b => simp [hft, h1, h2, h3]
          | none => simp [hft, h1, h2, h3]
        | none =>
          cases h3 : d.rate "USD" t with
          | some b => simp [hft, h1, h2, h3]
          | none => simp [hft, h1, h2, h3]
  · intro mid hmid
    unfold get_conversion_quote
    rw [hmid]

/-- Resolution of a direct rate by get_live_rate. -/
theorem get_live_rate_eq_of_direct {d : FxDeps} {f t : String} (hft : ¬ f = t)
    {r : ℚ} (h : d.rate f t = some r) :
    get_live_rate d f t = some (r * (1 + d.vol f t)) := by
  unfold get_live_rate
  rw [if_neg hft, h]
  rfl

/-- Witness for C9 amended: with a concrete one-row rate table
EUR to USD at 1.08, zero volatility and amount 1, the quote for
EUR/GBP is none (no pivot leg USD to GBP), and the quote for EUR/USD is
computed from mid rate 1.08. -/
theorem get_quote_spec_witness :
    get_conversion_quote
      ⟨fun f t => if f = "EUR" ∧ t = "USD" then some (27/25) else none,
       fun _ _ => 0⟩ "EUR" "GBP" 1 = none ∧
    get_conversion_quote
      ⟨fun f t => if f = "EUR" ∧ t = "USD" then some (27/25) else none,
       fun _ _ => 0⟩ "EUR" "USD" 1 =
      some { from_currency := "EUR", to_currency := "USD", from_amount := 1,
             to_amount := quantizeHalfAway (1 * ((27/25) * (1 + 0) * (1 - (3/2) / 200))) 4,
             mid_rate := pyRound ((27/25) * (1 + 0)) 6,
             effective_rate := pyRound ((27/25) * (1 + 0) * (1 - (3/2) / 200)) 6,
             spread_pct := 3/2,
             fx_fee := quantizeHalfAway (1 * ((3/2) / 200)) 6 } := by
  constructor
  · apply (get_quote_spec _ "EUR" "GBP" 1).1.mpr
    refine ⟨by decide, ?_, Or.inr ?_⟩
    · show (if "EUR" = "EUR" ∧ "GBP" = "USD" then some ((27 : ℚ)/25) else none) = none
      rw [if_neg (by decide)]
    · show (if "USD" = "EUR" ∧ "GBP" = "USD" then some ((27 : ℚ)/25) else none) = none
      rw [if_neg (by decide)]
  · apply (get_quote_spec _ "EUR" "USD" 1).2 ((27/25) * (1 + 0))
    apply get_live_rate_eq_of_direct (by decide)
    show (if "EUR" = "EUR" ∧ "USD" = "USD" then some ((27 : ℚ)/25) else none) = some (27/25)
    rw [if_pos (by decide)]

/-- Falsifies C8 as frozen: at the negative amount -1 the claimed
identity fee(a, true) = fee(a, false) + 0.005 * a fails, because both
fees are zero for non-positive amounts while the right-hand side is
-0.005. -/
theorem calculate_fee_cross_border_counterexample :
    calculate_fee (-1) true = 0 ∧
    calculate_fee (-1) false + (5/1000) * (-1) = -(5/1000) ∧
    calculate_fee (-1) true ≠ calculate_fee (-1) false + (5/1000) * (-1) := by
  refine ⟨by norm_num [calculate_fee], by norm_num [calculate_fee],
    by norm_num [calculate_fee]⟩

/-- C8 amended: calculate_fee is a pure function of the USD-equivalent
amount and the cross-border flag; amounts at or below 0 yield fee 0 for
both flags; positive amounts are charged 0.5 percent below 10, 1.0
percent in [10, 100), 1.5 percent in [100, 1000) and 2.0 percent from
1000 on; the quoted boundary values hold; and for every positive amount
the cross-border fee is the base-tier fee plus 0.005 times the amount
(for negative amounts both fees are zero and the additive identity
fails, see the counterexample). -/
theorem calculate_fee_tiers :
    (∀ (a : ℚ) (cb : Bool), a ≤ 0 → calculate_fee a cb = 0) ∧
    (∀ a : ℚ, 0 < a → a < 10 → calculate_fee a false = a * (5/1000)) ∧
    (∀ a : ℚ, 10 ≤ a → a < 100 → calculate_fee a false = a * (10/1000)) ∧
    (∀ a : ℚ, 100 ≤ a → a < 1000 → calculate_fee a false = a * (15/1000)) ∧
    (∀ a : ℚ, 1000 ≤ a → calculate_fee a false = a * (20/1000)) ∧
    calculate_fee (999/100) false = (999/100) * (5/1000) ∧
    calculate_fee 10 false = 10 * (10/1000) ∧
    calculate_fee 100 false = 100 * (15/1000) ∧
    calculate_fee 1000 false = 1000 * (20/1000) ∧
    (∀ a : ℚ, 0 < a → calculate_fee a true = calculate_fee a false + (5/1000) * a) := by
  refine ⟨?_, ?_, ?_, ?_, ?_, by norm_num [calculate_fee], by norm_num [calculate_fee],
    by norm_num [calculate_fee], by norm_num [calculate_fee], ?_⟩
  · intro a cb h
    unfold calculate_fee
    rw [if_pos h]
  · intro a h0 h10
    unfold calculate_fee
    rw [if_neg (not_le.mpr h0)]
    simp only [if_pos h10, Bool.false_eq_true, if_false]
  · intro a h10 h100
    unfold calculate_fee
    rw [if_neg (not_le.mpr (by linarith))]
    simp only [if_neg (not_lt.mpr h10), if_pos h100, Bool.false_eq_true, if_false]
  · intro a h100 h1000
    unfold calculate_fee
    rw [if_neg (not_le.mpr (by linarith))]
    simp only [if_neg (not_lt.mpr (by linarith : (10:ℚ) ≤ a)),
      if_neg (not_lt.mpr h100), if_pos h1000, Bool.false_eq_true, if_false]
  · intro a h1000
    unfold calculate_fee
    rw [if_neg (not_le.mpr (by linarith))]
    simp only [if_neg (not_lt.mpr (by linarith : (10:ℚ) ≤ a)),
      if_neg (not_lt.mpr (by linarith : (100:ℚ) ≤ a)),
      if_neg (not_lt.mpr h1000), Bool.false_eq_true, if_false]
  · intro a h0
    unfold calculate_fee
    rw [if_neg (not_le.mpr h0), if_neg (not_le.mpr h0)]
    simp only [Bool.false_eq_true, if_false, if_true]
    split_ifs <;> ring

/-- Witness for C8 amended: the tier identities evaluated at 5, 50,
500, 5000 and the cross-border identity at 50. -/
theorem calculate_fee_tiers_witness :
    calculate_fee 5 false = 5 * (5/1000) ∧
    calculate_fee 50 false = 50 * (10/1000) ∧
    calculate_fee 500 false = 500 * (15/1000) ∧
    calculate_fee 5000 false = 5000 * (20/1000) ∧
    calculate_fee 50 true = calculate_fee 50 false + (5/1000) * 50 ∧
    calculate_fee (-3) true = 0 := by
  refine ⟨calculate_fee_tiers.2.1 5 (by norm_num) (by norm_num),
    calculate_fee_tiers.2.2.1 50 (by norm_num) (by norm_num),
    calculate_fee_tiers.2.2.2.1 500 (by norm_num) (by norm_num),
    calculate_fee_tiers.2.2.2.2.1 5000 (by norm_num),
    calculate_fee_tiers.2.2.2.2.2.2.2.2.2 50 (by norm_num),
    calculate_fee_tiers.1 (-3) true (by norm_num)⟩

/-- Appending one row only matters for a key that was absent. -/
theorem lookupW_append (ws : Wallets) (e : WKey × Wallet) (k : WKey) :
    lookupW (ws ++ [e]) k =
      match lookupW ws k with
      | some w => some w
      | none => if e.1 = k then some e.2 else none := by
  induction ws with
  | nil => simp [lookupW]
  | cons a rest ih =>
    by_cases ha : a.1 = k
    · simp [lookupW, ha]
    · simp only [List.cons_append, lookupW, if_neg ha]
      exact ih

/-- ensureOneWallet never changes any read balance: it only appends a
zero row for a missing key. -/
theorem walletBal_ensureOneWallet (ws : Wallets) (u c : String) (k : WKey) :
    walletBal (ensureOneWallet ws u c) k = walletBal ws k := by
  unfold ensureOneWallet
  split
  · rfl
  · unfold walletBal
    rw [lookupW_append]
    cases h : lookupW ws k with
    | some w => simp
    | none =>
      by_cases hk : (u, c) = k
      · simp [hk]
      · simp [hk]

/-- ensure_all_currency_wallets never changes any read balance. -/
theorem walletBal_ensureAll (ws : Wallets) (u : String) (k : WKey) :
    walletBal (ensure_all_currency_wallets ws u) k = walletBal ws k := by
  unfold ensure_all_currency_wallets
  have h : ∀ (l : List String) (ws0 : Wallets),
      walletBal (l.foldl (fun acc c => ensureOneWallet acc u c) ws0) k =
        walletBal ws0 k := by
    intro l
    induction l with
    | nil => intro ws0; rfl
    | cons c rest ih =>
      intro ws0
      simp only [List.foldl_cons]
      rw [ih, walletBal_ensureOneWallet]
  exact h _ ws

set_option maxHeartbeats 1600000 in
/-- A send that returns a failure leaves every wallet balance as it
was (only zero-balance back-fill rows may have been added). -/
theorem send_money_failure_preserves_balances (d : SendDeps) (st : St)
    (s p : String) (a : ℚ) (c msg : String) (st2 : St)
    (h : send_money d st s p a c = (.failure msg, st2)) (k : WKey) :
    walletBal st2.wallets k = walletBal st.wallets k := by
  simp only [send_money] at h
  repeat' split at h
  all_goals rw [Prod.mk.injEq] at h
  all_goals obtain ⟨h1, h2⟩ := h
  all_goals first
    | (subst h2; first
        | rfl
        | exact walletBal_ensureAll st.wallets _ k)
    | exact absurd h1 (by simp)

/-- A successful update_balance shifts the read balance of its key by
the delta and leaves every other key alone. -/
theorem update_balance_walletBal {ws ws2 : Wallets} {u c : String} {δ : Int}
    (h : update_balance ws u c δ = some ws2) :
    walletBal ws2 (u, c) = walletBal ws (u, c) + δ ∧
    ∀ k, k ≠ (u, c) → lookupW ws2 k = lookupW ws k := by
  cases hw : lookupW ws (u, c) with
  | none =>
    simp only [update_balance, hw] at h
    exact Option.noConfusion h
  | some w =>
    simp only [update_balance, hw] at h
    split at h
    · simp at h
    · have hws2 := Option.some.inj h
      subst hws2
      constructor
      · unfold walletBal
        rw [lookupW_writeBalance_self hw, hw]
        rfl
      · intro k hk
        exact lookupW_writeBalance_ne ws hk _

/-- Equal lookups give equal read balances. -/
theorem walletBal_congr {ws ws2 : Wallets} {k : WKey}
    (h : lookupW ws2 k = lookupW ws k) : walletBal ws2 k = walletBal ws k := by
  unfold walletBal
  rw [h]

/-- Falsifies C7 as frozen: a history of three outbound transfers in
the trailing 24 hours, each of 880 EUR — USD-equivalent 950.40, inside
[900, 1000] — and the compliance check still allows the next transfer,
because the code compares the raw per-currency amount (880), not the
USD equivalent, against the [900, 1000] band. -/
theorem check_transaction_structuring_counterexample :
    (∀ tx ∈ exampleEuroSends, tx.sender = "alice" ∧ tx.tx_type = "SEND" ∧
      (2000 : ℚ) - 86400 < tx.timestamp ∧
      900 ≤ tx.amount * exampleUsdRate tx.currency ∧
      tx.amount * exampleUsdRate tx.currency ≤ 1000) ∧
    3 ≤ exampleEuroSends.length ∧
    check_transaction ⟨fun u => some ⟨u, "User", "KE", false⟩, 2000⟩
      exampleEuroSends "alice" 10 "carol" false = (true, "OK") := by
  refine ⟨?_, by decide, ?_⟩
  · intro tx htx
    fin_cases htx <;>
      exact ⟨rfl, rfl, by norm_num, by norm_num [exampleUsdRate],
        by norm_num [exampleUsdRate]⟩
  · norm_num [check_transaction, SANCTIONS_LIST, structuringRows,
      exampleEuroSends, TX_LIMIT_USD, DAILY_LIMIT_USD, List.filter]
    decide

/-- C7 amended: the structuring rule fires on the raw recorded amount
of each trailing-24h outbound row (major units of the row's own
currency, not the USD equivalent): whenever at least 3 such rows have
amounts inside [900, 1000] the compliance check denies (whatever an
earlier rule would also have said), and it denies with the structuring
reason when no earlier rule fires; and a send that fails — in
particular one denied by compliance, which is checked before the atomic
scope — changes no wallet balance. -/
theorem check_transaction_structuring_spec :
    (∀ (d : ComplianceDeps) (txs : List HTx) (user : String) (amount_usd : ℚ)
        (recipient : String) (cb : Bool),
      3 ≤ (structuringRows d.now txs user).length →
      (check_transaction d txs user amount_usd recipient cb).1 = false) ∧
    (∀ (d : ComplianceDeps) (txs : List HTx) (user : String) (amount_usd : ℚ)
        (recipient : String) (cb : Bool),
      3 ≤ (structuringRows d.now txs user).length →
      ¬ (user ∈ SANCTIONS_LIST ∨ recipient ∈ SANCTIONS_LIST) →
      (match d.userById user with
       | some u => u.is_suspended
       | none => false) = false →
      ¬ TX_LIMIT_USD < amount_usd →
      ¬ DAILY_LIMIT_USD <
        ((txs.filter (fun tx =>
            decide (d.now - 86400 < tx.timestamp ∧ tx.sender = user))).map
          (fun tx => tx.amount)).sum + amount_usd →
      check_transaction d txs user amount_usd recipient cb =
        (false, "Suspicious activity detected: transaction structuring")) ∧
    (∀ (d : SendDeps) (st : St) (s p : String) (a : ℚ) (c msg : String) (st2 : St),
      send_money d st s p a c = (.failure msg, st2) →
      ∀ k, walletBal st2.wallets k = walletBal st.wallets k) := by
  refine ⟨?_, ?_, ?_⟩
  · intro d txs user amount_usd recipient cb hcount
    simp only [check_transaction]
    split_ifs <;> rfl
  · intro d txs user amount_usd recipient cb hcount h1 h2 h3 h4
    simp only [check_transaction]
    rw [if_neg h1, if_neg (by rw [h2]; exact Bool.false_ne_true ∘ id),
      if_neg h3, if_neg h4, if_pos hcount]
  · intro d st s p a c msg st2 h k
    exact send_money_failure_preserves_balances d st s p a c msg st2 h k

/-- Witness for C7 amended: scenario D of the specification — three
prior 950.00 USD sends inside 24h deny the next transfer with the
structuring reason; and a concrete failing send (non-positive amount)
changes no balance. -/
theorem check_transaction_structuring_spec_witness :
    check_transaction ⟨fun u => some ⟨u, "User", "KE", false⟩, 2000⟩
      [⟨"t1", "alice", "u1", 950, "USD", "SEND", 0, 1000, "CONFIRMED"⟩,
       ⟨"t2", "alice", "u2", 950, "USD", "SEND", 0, 1100, "CONFIRMED"⟩,
       ⟨"t3", "alice", "u3", 950, "USD", "SEND", 0, 1200, "CONFIRMED"⟩]
      "alice" 950 "carol" false =
      (false, "Suspicious activity detected: transaction structuring") ∧
    walletBal (send_money noDeps emptySt "alice" "p" (-5) "USD").2.wallets
      ("alice", "USD") = walletBal emptySt.wallets ("alice", "USD") := by
  constructor
  · apply check_transaction_structuring_spec.2.1
    · show 3 ≤ (structuringRows 2000 _ "alice").length
      norm_num [structuringRows, List.filter]
    · decide
    · rfl
    · norm_num [TX_LIMIT_USD]
    · norm_num [DAILY_LIMIT_USD, List.filter]
  · have h : send_money noDeps emptySt "alice" "p" (-5) "USD" =
        (.failure "Amount must be positive", emptySt) := by
      unfold send_money
      rw [if_pos (by norm_num)]
    exact check_transaction_structuring_spec.2.2 noDeps emptySt "alice" "p" (-5)
      "USD" "Amount must be positive" _ (by rw [h]) ("alice", "USD")

/-- Full evaluation of a send of 3.006 USD against a 100.00 USD
balance: fee 0.01503 USD, debit of 302 minor units, credit of 301,
recorded fee 2. -/
theorem send_money_eval_3006 :
    send_money sendExDeps sendExSt "alice" "bob_phone" (3006/1000) "USD" =
      (.success "txA" (3006/1000) (1503/100000) (302103/100000),
       ⟨[(("alice", "USD"), ⟨9698, 0⟩), (("bob", "USD"), ⟨301, 0⟩),
         (("bob", "EUR"), ⟨0, 0⟩), (("bob", "KES"), ⟨0, 0⟩),
         (("bob", "NGN"), ⟨0, 0⟩), (("bob", "GBP"), ⟨0, 0⟩)],
        [⟨"txA", "alice", "bob", 301, "USD", "SEND", 2, 0, "CONFIRMED"⟩],
        [], []⟩) := by
  simp only [send_money, sendExDeps, sendExSt]
  iterate 8
    try norm_num
    try simp [SUPPORTED_CURRENCIES, ensure_all_currency_wallets, ensureOneWallet,
      lookupW, get_balance, get_user_transactions, check_transaction,
      SANCTIONS_LIST, structuringRows, TX_LIMIT_USD, DAILY_LIMIT_USD,
      calculate_fee, toMinor, roundHalfAway, update_balance, writeBalance,
      List.filter]

/-- Full evaluation of scenario A: a send of 20.00 USD against a
100.00 USD balance, non-cross-border: fee 0.20 USD, Alice ends at
79.80, Bob gains 20.00, one CONFIRMED SEND row of 2000 minor units with
fee 20. -/
theorem send_money_eval_20 :
    send_money sendExDeps sendExSt "alice" "bob_phone" 20 "USD" =
      (.success "txA" 20 (1/5) (101/5),
       ⟨[(("alice", "USD"), ⟨7980, 0⟩), (("bob", "USD"), ⟨2000, 0⟩),
         (("bob", "EUR"), ⟨0, 0⟩), (("bob", "KES"), ⟨0, 0⟩),
         (("bob", "NGN"), ⟨0, 0⟩), (("bob", "GBP"), ⟨0, 0⟩)],
        [⟨"txA", "alice", "bob", 2000, "USD", "SEND", 20, 0, "CONFIRMED"⟩],
        [], []⟩) := by
  simp only [send_money, sendExDeps, sendExSt]
  iterate 8
    try norm_num
    try simp [SUPPORTED_CURRENCIES, ensure_all_currency_wallets, ensureOneWallet,
      lookupW, get_balance, get_user_transactions, check_transaction,
      SANCTIONS_LIST, structuringRows, TX_LIMIT_USD, DAILY_LIMIT_USD,
      calculate_fee, toMinor, roundHalfAway, update_balance, writeBalance,
      List.filter]

/-- C6 amended: a successful send moves stored minor units: the sender
decreases by round(100 x (amount + fee)) minor units (half away from
zero), the recipient increases by round(100 x amount), every other
wallet is untouched, and one CONFIRMED SEND row for round(100 x amount)
with fee round(100 x fee) is appended; hence the pair sum changes by
round(100 x amount) - round(100 x (amount + fee)), which is minus the
fee only up to rounding (the frozen claim asserted exactly minus the
fee, see the counterexample); scenario A (20.00 USD at fee 0.20) is
exact. -/
theorem send_money_success_spec (d : SendDeps) (st : St) (s p : String) (a : ℚ)
    (c tx : String) (amt fee total : ℚ) (st2 : St)
    (h : send_money d st s p a c = (.success tx amt fee total, st2)) :
    ∃ rec, d.userByPhone p = some rec ∧ ¬ rec.user_id = s ∧
      tx = d.newTxId ∧ amt = a ∧ total = a + fee ∧
      walletBal st2.wallets (s, c) = walletBal st.wallets (s, c) - toMinor (a + fee) ∧
      walletBal st2.wallets (rec.user_id, c) =
        walletBal st.wallets (rec.user_id, c) + toMinor a ∧
      (∀ k, k ≠ (s, c) → k ≠ (rec.user_id, c) →
        walletBal st2.wallets k = walletBal st.wallets k) ∧
      st2.txs = st.txs ++
        [⟨d.newTxId, s, rec.user_id, toMinor a, c, "SEND", toMinor fee, d.now,
          "CONFIRMED"⟩] ∧
      (walletBal st2.wallets (s, c) + walletBal st2.wallets (rec.user_id, c)) -
        (walletBal st.wallets (s, c) + walletBal st.wallets (rec.user_id, c)) =
        toMinor a - toMinor (a + fee) := by
  simp only [send_money] at h
  repeat' split at h
  all_goals rw [Prod.mk.injEq] at h
  all_goals obtain ⟨h1, h2⟩ := h
  all_goals try (exact SendOutcome.noConfusion h1)
  all_goals injection h1 with e1 e2 e3 e4
  all_goals subst e1
  all_goals subst e2
  all_goals subst e3
  all_goals subst e4
  all_goals subst h2
  all_goals
    rename_i hnpos hsupp xphone rec hrec hself xw w hw hbal1 xrate mid hrate
      xsender sender hsender hchk hfeecond hbal2 xdeb ws2 hdeb xcred ws3 hcred
  all_goals dsimp only
  all_goals have hd := update_balance_walletBal hdeb
  all_goals have hc := update_balance_walletBal hcred
  all_goals
    have hne2 : ((rec.user_id, c) : WKey) ≠ (s, c) :=
      fun hEq => hself (congrArg Prod.fst hEq)
  all_goals refine ⟨rec, hrec, hself, rfl, rfl, rfl, ?_, ?_, ?_, rfl, ?_⟩
  all_goals first
    | (rw [walletBal_congr (hc.2 (s, c) (Ne.symm hne2)), hd.1,
        walletBal_ensureAll st.wallets rec.user_id (s, c)]
       ring1)
    | (rw [hc.1, walletBal_congr (hd.2 (rec.user_id, c) hne2),
        walletBal_ensureAll st.wallets rec.user_id (rec.user_id, c)]
       done)
    | (intro k hk1 hk2
       rw [walletBal_congr (hc.2 k hk2), walletBal_congr (hd.2 k hk1),
         walletBal_ensureAll st.wallets rec.user_id k]
       done)
    | (rw [walletBal_congr (hc.2 (s, c) (Ne.symm hne2)), hd.1, hc.1,
        walletBal_congr (hd.2 (rec.user_id, c) hne2),
        walletBal_ensureAll st.wallets rec.user_id (s, c),
        walletBal_ensureAll st.wallets rec.user_id (rec.user_id, c)]
       ring1)

/-- Falsifies C6 as frozen: sending 3.006 USD from a 100.00 USD balance
computes fee 0.01503 USD; the stored debit is 302 minor units
(3.02103 rounded) and the credit 301 (3.006 rounded), so the pair sum
changes by -1 minor unit while the recorded fee is 2 minor units:
the sum does not change by minus the fee under either reading (recorded
fee 0.02 or computed fee 0.01503), and the sender decrease 3.02 is not
amount + fee. -/
theorem send_money_conservation_counterexample :
    ∃ st2,
      send_money sendExDeps sendExSt "alice" "bob_phone" (3006/1000) "USD" =
        (.success "txA" (3006/1000) (1503/100000) (302103/100000), st2) ∧
      walletBal st2.wallets ("alice", "USD") = 9698 ∧
      walletBal st2.wallets ("bob", "USD") = 301 ∧
      st2.txs = [⟨"txA", "alice", "bob", 301, "USD", "SEND", 2, 0, "CONFIRMED"⟩] ∧
      walletBal sendExSt.wallets ("alice", "USD") = 10000 ∧
      walletBal sendExSt.wallets ("bob", "USD") = 0 ∧
      toMinor (1503/100000) = 2 ∧
      (9698 + 301 : ℤ) - (10000 + 0) = -1 ∧
      ¬ ((9698 + 301 : ℤ) - (10000 + 0) = -2) ∧
      ¬ (((10000 - 9698 : ℤ) : ℚ) / 100 = 3006/1000 + 1503/100000) := by
  refine ⟨_, send_money_eval_3006, by simp [walletBal, lookupW],
    by simp [walletBal, lookupW], rfl, by simp [sendExSt, walletBal, lookupW],
    by simp [sendExSt, walletBal, lookupW], by norm_num [toMinor, roundHalfAway],
    by norm_num, by norm_num, by norm_num⟩

/-- Witness for C6 amended: scenario A — the success postcondition
instantiated at the 20.00 USD send, where the fee is 0.20, Alice ends
at 79.80 (7980 minor units), Bob gains exactly 2000 minor units, and
the appended row is a CONFIRMED SEND of 2000 minor units with fee
20. -/
theorem send_money_success_spec_witness :
    (∃ rec, sendExDeps.userByPhone "bob_phone" = some rec ∧
      ¬ rec.user_id = "alice" ∧
      "txA" = sendExDeps.newTxId ∧ (20 : ℚ) = 20 ∧ (101/5 : ℚ) = 20 + 1/5 ∧
      walletBal (⟨[(("alice", "USD"), ⟨7980, 0⟩), (("bob", "USD"), ⟨2000, 0⟩),
          (("bob", "EUR"), ⟨0, 0⟩), (("bob", "KES"), ⟨0, 0⟩),
          (("bob", "NGN"), ⟨0, 0⟩), (("bob", "GBP"), ⟨0, 0⟩)],
         [⟨"txA", "alice", "bob", 2000, "USD", "SEND", 20, 0, "CONFIRMED"⟩],
         [], []⟩ : St).wallets ("alice", "USD") =
        walletBal sendExSt.wallets ("alice", "USD") - toMinor (20 + 1/5) ∧
      walletBal (⟨[(("alice", "USD"), ⟨7980, 0⟩), (("bob", "USD"), ⟨2000, 0⟩),
          (("bob", "EUR"), ⟨0, 0⟩), (("bob", "KES"), ⟨0, 0⟩),
          (("bob", "NGN"), ⟨0, 0⟩), (("bob", "GBP"), ⟨0, 0⟩)],
         [⟨"txA", "alice", "bob", 2000, "USD", "SEND", 20, 0, "CONFIRMED"⟩],
         [], []⟩ : St).wallets (rec.user_id, "USD") =
        walletBal sendExSt.wallets (rec.user_id, "USD") + toMinor 20 ∧
      (∀ k, k ≠ ("alice", "USD") → k ≠ (rec.user_id, "USD") →
        walletBal (⟨[(("alice", "USD"), ⟨7980, 0⟩), (("bob", "USD"), ⟨2000, 0⟩),
            (("bob", "EUR"), ⟨0, 0⟩), (("bob", "KES"), ⟨0, 0⟩),
            (("bob", "NGN"), ⟨0, 0⟩), (("bob", "GBP"), ⟨0, 0⟩)],
           [⟨"txA", "alice", "bob", 2000, "USD", "SEND", 20, 0, "CONFIRMED"⟩],
           [], []⟩ : St).wallets k = walletBal sendExSt.wallets k) ∧
      (⟨[(("alice", "USD"), ⟨7980, 0⟩), (("bob", "USD"), ⟨2000, 0⟩),
          (("bob", "EUR"), ⟨0, 0⟩), (("bob", "KES"), ⟨0, 0⟩),
          (("bob", "NGN"), ⟨0, 0⟩), (("bob", "GBP"), ⟨0, 0⟩)],
         [⟨"txA", "alice", "bob", 2000, "USD", "SEND", 20, 0, "CONFIRMED"⟩],
         [], []⟩ : St).txs = sendExSt.txs ++
        [⟨sendExDeps.newTxId, "alice", rec.user_id, toMinor 20, "USD", "SEND",
          toMinor (1/5), sendExDeps.now, "CONFIRMED"⟩] ∧
      (walletBal (⟨[(("alice", "USD"), ⟨7980, 0⟩), (("bob", "USD"), ⟨2000, 0⟩),
          (("bob", "EUR"), ⟨0, 0⟩), (("bob", "KES"), ⟨0, 0⟩),
          (("bob", "NGN"), ⟨0, 0⟩), (("bob", "GBP"), ⟨0, 0⟩)],
         [⟨"txA", "alice", "bob", 2000, "USD", "SEND", 20, 0, "CONFIRMED"⟩],
         [], []⟩ : St).wallets ("alice", "USD") +
        walletBal (⟨[(("alice", "USD"), ⟨7980, 0⟩), (("bob", "USD"), ⟨2000, 0⟩),
          (("bob", "EUR"), ⟨0, 0⟩), (("bob", "KES"), ⟨0, 0⟩),
          (("bob", "NGN"), ⟨0, 0⟩), (("bob", "GBP"), ⟨0, 0⟩)],
         [⟨"txA", "alice", "bob", 2000, "USD", "SEND", 20, 0, "CONFIRMED"⟩],
         [], []⟩ : St).wallets (rec.user_id, "USD")) -
        (walletBal sendExSt.wallets ("alice", "USD") +
         walletBal sendExSt.wallets (rec.user_id, "USD")) =
        toMinor 20 - toMinor (20 + 1/5)) ∧
    toMinor (20 + 1/5 : ℚ) = 2020 ∧ toMinor (20 : ℚ) = 2000 ∧
    toMinor (1/5 : ℚ) = 20 := by
  refine ⟨send_money_success_spec sendExDeps sendExSt "alice" "bob_phone" 20
      "USD" "txA" 20 (1/5) (101/5) _ send_money_eval_20,
    by norm_num [toMinor, roundHalfAway], by norm_num [toMinor, roundHalfAway],
    by norm_num [toMinor, roundHalfAway]⟩

/-- Reading the shifted key after addBalanceAll. -/
theorem lookupW_addBalanceAll_self (ws : Wallets) (k : WKey) (δ : Int) :
    lookupW (addBalanceAll ws k δ) k =
      (lookupW ws k).map (fun w => { w with balance := w.balance + δ }) := by
  induction ws with
  | nil => simp [lookupW, addBalanceAll]
  | cons e rest ih =>
    by_cases he : e.1 = k
    · simp [lookupW, addBalanceAll, he]
    · simp only [addBalanceAll, List.map_cons, if_neg he, lookupW]
      exact ih

/-- addBalanceAll leaves every other key unchanged. -/
theorem lookupW_addBalanceAll_ne (ws : Wallets) {k k2 : WKey} (hk : k2 ≠ k) (δ : Int) :
    lookupW (addBalanceAll ws k δ) k2 = lookupW ws k2 := by
  induction ws with
  | nil => simp [lookupW, addBalanceAll]
  | cons e rest ih =>
    by_cases he : e.1 = k
    · have hne : ¬ (e.1 = k2) := by rw [he]; exact fun h => hk h.symm
      simp only [addBalanceAll, List.map_cons, if_pos he, lookupW, if_neg hne]
      exact ih
    · by_cases hek : e.1 = k2
      · simp [lookupW, addBalanceAll, if_neg he, if_pos hek]
      · simp only [addBalanceAll, List.map_cons, if_neg he, lookupW, if_neg hek]
        exact ih

/-- Falsifies C4 as frozen: Bob received 50.00 USD, holds balance
100.00 with 80.00 locked, so his spendable balance is 20.00 — the claim
requires the approval to fail with insufficient funds — yet
approve_reversal succeeds (it checks only the raw balance), debits Bob
to 50.00 and marks the reversal APPROVED. -/
theorem approve_reversal_spendable_counterexample :
    get_balance revExSt.wallets "bob" "USD" = 20 ∧
    (∃ t ∈ revExSt.txs, t.tx_id = "tx1" ∧ t.amount = 5000 ∧
      get_balance revExSt.wallets "bob" "USD" * 100 < (t.amount : ℚ)) ∧
    (approve_reversal noDeps revExSt "rev1" "admin" "").1 = .ok (some "tx-new") ∧
    walletBal (approve_reversal noDeps revExSt "rev1" "admin" "").2.wallets
      ("bob", "USD") = 5000 ∧
    (∃ r ∈ (approve_reversal noDeps revExSt "rev1" "admin" "").2.reversals,
      r.reversal_id = "rev1" ∧ r.status = "APPROVED") := by
  refine ⟨by norm_num [get_balance, revExSt, lookupW], ?_, ?_, ?_, ?_⟩
  · refine ⟨⟨"tx1", "alice", "bob", 5000, "USD", "SEND", 50, 0, "CONFIRMED"⟩,
      by decide, rfl, rfl, ?_⟩
    norm_num [get_balance, revExSt, lookupW]
  · decide
  · decide
  · decide

/-- C4 amended: approving a PENDING reversal is one atomic step that
checks the recipient's raw balance — not the spendable balance, locked
funds count as available — against the original amount; on a shortfall
it fails with the insufficient-funds message and the state is
unchanged, and every other failure (missing reversal, transaction or
wallet) also leaves the state unchanged; on success the sender gains
the amount, the recipient loses it, no other wallet moves, the original
transaction rows are marked REVERSED, exactly one new CONFIRMED
REVERSAL row in the recipient-to-sender direction is appended, and the
reversal record is marked APPROVED. -/
theorem approve_reversal_spec (d : SendDeps) (st : St) (rid aid note : String) :
    (∀ msg st2, approve_reversal d st rid aid note = (.failure msg, st2) → st2 = st) ∧
    (∀ rev t, st.reversals.find?
        (fun r => decide (r.reversal_id = rid ∧ r.status = "PENDING")) = some rev →
      st.txs.find? (fun r => decide (r.tx_id = rev.tx_id)) = some t →
      ∀ sw rw, lookupW st.wallets (t.sender, t.currency) = some sw →
        lookupW st.wallets (t.recipient, t.currency) = some rw →
        ((rw.balance < t.amount →
          approve_reversal d st rid aid note =
            (.failure "Recipient has insufficient funds for reversal", st)) ∧
        (¬ rw.balance < t.amount → ¬ t.sender = t.recipient →
          ¬ d.newTxId = rev.tx_id →
          ∃ st2, approve_reversal d st rid aid note = (.ok (some d.newTxId), st2) ∧
            walletBal st2.wallets (t.sender, t.currency) =
              walletBal st.wallets (t.sender, t.currency) + t.amount ∧
            walletBal st2.wallets (t.recipient, t.currency) =
              walletBal st.wallets (t.recipient, t.currency) - t.amount ∧
            (∀ k, k ≠ (t.sender, t.currency) → k ≠ (t.recipient, t.currency) →
              walletBal st2.wallets k = walletBal st.wallets k) ∧
            st2.txs = st.txs.map
              (fun r => if r.tx_id = rev.tx_id then { r with status := "REVERSED" }
                else r) ++
              [⟨d.newTxId, t.recipient, t.sender, t.amount, t.currency, "REVERSAL",
                0, d.now, "CONFIRMED"⟩] ∧
            (∀ r ∈ st2.txs, r.tx_id = rev.tx_id → r.status = "REVERSED") ∧
            st2.txs.length = st.txs.length + 1 ∧
            (∀ r ∈ st2.reversals, r.reversal_id = rid → r.status = "APPROVED") ∧
            st2.mpesa = st.mpesa))) := by
  constructor
  · intro msg st2 h
    simp only [approve_reversal] at h
    repeat' split at h
    all_goals rw [Prod.mk.injEq] at h
    all_goals obtain ⟨h1, h2⟩ := h
    all_goals first | exact h2.symm | exact RevOutcome.noConfusion h1
  · intro rev t hrev htx sw rw hsw hrw
    constructor
    · intro hlt
      unfold approve_reversal
      rw [hrev]
      dsimp only
      rw [htx]
      dsimp only
      rw [hsw, hrw]
      dsimp only
      rw [if_pos hlt]
    · intro hged hsr hnew
      have hkne : ((t.recipient, t.currency) : WKey) ≠ (t.sender, t.currency) :=
        fun hEq => hsr (congrArg Prod.fst hEq).symm
      refine ⟨(⟨addBalanceAll (addBalanceAll st.wallets (t.sender, t.currency) t.amount)
          (t.recipient, t.currency) (-t.amount),
        (st.txs ++ [(⟨d.newTxId, t.recipient, t.sender, t.amount, t.currency,
            "REVERSAL", 0, d.now, "CONFIRMED"⟩ : TxRow)]).map
          (fun r => if r.tx_id = rev.tx_id then { r with status := "REVERSED" } else r),
        st.mpesa,
        st.reversals.map (fun r => if r.reversal_id = rid then
          { r with
            status := "APPROVED",
            admin_id := some aid,
            admin_note := some note } else r)⟩ : St),
        ?_, ?_, ?_, ?_, ?_, ?_, ?_, ?_, rfl⟩
      · unfold approve_reversal
        rw [hrev]
        dsimp only
        rw [htx]
        dsimp only
        rw [hsw, hrw]
        dsimp only
        rw [if_neg hged]
      · dsimp only
        unfold walletBal
        rw [lookupW_addBalanceAll_ne _ hkne.symm,
          lookupW_addBalanceAll_self, hsw]
        rfl
      · dsimp only
        unfold walletBal
        rw [lookupW_addBalanceAll_self,
          lookupW_addBalanceAll_ne _ hkne, hrw]
        rfl
      · intro k hk1 hk2
        dsimp only
        unfold walletBal
        rw [lookupW_addBalanceAll_ne _ hk2, lookupW_addBalanceAll_ne _ hk1]
      · dsimp only
        rw [List.map_append]
        simp only [List.map_cons, List.map_nil, if_neg hnew]
      · intro r hr hid
        dsimp only at hr
        obtain ⟨r0, hr0, rfl⟩ := List.mem_map.mp hr
        by_cases h0 : r0.tx_id = rev.tx_id
        · simp [h0]
        · rw [if_neg h0] at hid ⊢
          exact absurd hid h0
      · dsimp only
        simp
      · intro r hr hid
        dsimp only at hr
        obtain ⟨r0, hr0, rfl⟩ := List.mem_map.mp hr
        by_cases h0 : r0.reversal_id = rid
        · simp [h0]
        · rw [if_neg h0] at hid ⊢
          exact absurd hid h0

/-- Witness for C4 amended: the reversal of the 50.00 USD send with
nothing locked succeeds, Alice regains 50.00, Bob drops to 50.00, the
original transaction is REVERSED and the reversal APPROVED. -/
theorem approve_reversal_spec_witness :
    ∃ st2, approve_reversal noDeps revOkSt "rev1" "admin" "" =
        (.ok (some "tx-new"), st2) ∧
      walletBal st2.wallets ("alice", "USD") = 5000 ∧
      walletBal st2.wallets ("bob", "USD") = 5000 ∧
      (∀ r ∈ st2.txs, r.tx_id = "tx1" → r.status = "REVERSED") ∧
      (∀ r ∈ st2.reversals, r.reversal_id = "rev1" → r.status = "APPROVED") := by
  have h := ((approve_reversal_spec noDeps revOkSt "rev1" "admin" "").2
    ⟨"rev1", "tx1", "alice", "wrong recipient", "PENDING", none, none⟩
    ⟨"tx1", "alice", "bob", 5000, "USD", "SEND", 50, 0, "CONFIRMED"⟩
    (by decide) (by decide) ⟨0, 0⟩ ⟨10000, 0⟩ (by decide) (by decide)).2
    (by decide) (by decide) (by decide)
  obtain ⟨st2, hEq, hs, hr, ho, htxs, hmark, hlen, hrevs, hmp⟩ := h
  refine ⟨st2, hEq, ?_, ?_, hmark, hrevs⟩
  · rw [hs]
    decide
  · rw [hr]
    decide

/-- The callback handler ignores a delivery whose record is no longer
PENDING: the state is returned unchanged. -/
theorem mpesa_callback_noop_of_terminal (d : SendDeps) (st : St)
    (cb : ParsedCallback) (rec : MTx)
    (hfind : st.mpesa.find?
      (fun m => decide (m.checkout_request_id = some cb.checkout_request_id)) = some rec)
    (hterm : ¬ rec.status = "PENDING") :
    mpesa_callback d st cb = st := by
  unfold mpesa_callback
  by_cases hck : cb.checkout_request_id = ""
  · rw [if_pos hck]
  · rw [if_neg hck, hfind]
    dsimp only
    rw [if_pos hterm]

/-- Falsifies C5 as frozen: the fail helper updates by internal_ref
with no status guard, so invoking it on a CONFIRMED (terminal) record
mutates it back to FAILED. -/
theorem fail_mpesa_tx_terminal_counterexample :
    (∀ m ∈ mpesaExSt.mpesa, m.status = "CONFIRMED") ∧
    (fail_mpesa_tx mpesaExSt "ref1" (-1) "late failure").mpesa ≠ mpesaExSt.mpesa ∧
    (∃ m ∈ (fail_mpesa_tx mpesaExSt "ref1" (-1) "late failure").mpesa,
      m.internal_ref = "ref1" ∧ m.status = "FAILED") := by
  decide

/-- C5 amended: the two entry points that are status-guarded never
touch a settled record — a later callback for a non-PENDING record
returns the state unchanged, and the expiry sweep maps every
non-PENDING row to itself (it expires exactly the overdue PENDING
rows) — but the raw helpers confirm_mpesa_tx and fail_mpesa_tx update
by internal_ref unconditionally and do mutate a terminal record when
invoked directly on it (see the counterexample). -/
theorem mpesa_terminal_guarded_spec :
    (∀ (d : SendDeps) (st : St) (cb : ParsedCallback) (rec : MTx),
      st.mpesa.find?
        (fun m => decide (m.checkout_request_id = some cb.checkout_request_id)) =
        some rec →
      ¬ rec.status = "PENDING" → mpesa_callback d st cb = st) ∧
    (∀ (st : St) (now : ℚ),
      List.Forall₂ (fun m m2 =>
        (¬ m.status = "PENDING" → m2 = m) ∧
        (m.status = "PENDING" → m.expires_at < now →
          m2 = { m with status := "EXPIRED" }) ∧
        (m.status = "PENDING" → ¬ m.expires_at < now → m2 = m))
        st.mpesa (expire_stale_mpesa_txs st now).mpesa) := by
  constructor
  · exact mpesa_callback_noop_of_terminal
  · intro st now
    show List.Forall₂ _ st.mpesa (st.mpesa.map _)
    induction st.mpesa with
    | nil => exact List.Forall₂.nil
    | cons a tail ih =>
      refine List.Forall₂.cons ⟨?_, ?_, ?_⟩ ih
      · intro hnp
        exact if_neg (fun hc => hnp hc.1)
      · intro hp hexp
        exact if_pos ⟨hp, hexp⟩
      · intro hp hnexp
        exact if_neg (fun hc => hnexp hc.2)

/-- Witness for C5 amended: delivering a callback for the CONFIRMED
record CK1 leaves the state untouched, and the sweep at time 1000
leaves the CONFIRMED row as it is. -/
theorem mpesa_terminal_guarded_spec_witness :
    mpesa_callback noDeps mpesaExSt ⟨"CK1", true, 0, "ok", 500, "RCPT2", "+254700000001"⟩ =
      mpesaExSt ∧
    (expire_stale_mpesa_txs mpesaExSt 1000).mpesa = mpesaExSt.mpesa := by
  constructor
  · exact mpesa_terminal_guarded_spec.1 noDeps mpesaExSt
      ⟨"CK1", true, 0, "ok", 500, "RCPT2", "+254700000001"⟩
      ⟨"ref1", "alice", "+254700000001", 50000, some "CK1", "CONFIRMED", some 0,
        some "ok", some "RCPT1", some "+254700000001", true, some "txZ", 120⟩
      (by decide) (by decide)
  · decide

/-- find? commutes with a map that does not change the predicate. -/
theorem find?_map_of_pred {α : Type} (g : α → α) (p : α → Bool)
    (hp : ∀ a, p (g a) = p a) (l : List α) :
    (l.map g).find? p = (l.find? p).map g := by
  induction l with
  | nil => rfl
  | cons a tail ih =>
    by_cases ha : p a = true
    · simp [List.find?_cons, hp, ha]
    · simp [List.find?_cons, hp, ha, ih]

/-- deposit never touches the mpesa_transactions table. -/
theorem deposit_mpesa_eq (d : SendDeps) (st : St) (u : String) (a : ℚ)
    (c : String) : (deposit d st u a c).2.mpesa = st.mpesa := by
  unfold deposit
  dsimp only
  repeat' split
  all_goals rfl

/-- deposit never touches the reversal_requests table. -/
theorem deposit_reversals_eq (d : SendDeps) (st : St) (u : String) (a : ℚ)
    (c : String) : (deposit d st u a c).2.reversals = st.reversals := by
  unfold deposit
  dsimp only
  repeat' split
  all_goals rfl

/-- Rounding a nonnegative rational to minor units stays
nonnegative. -/
theorem toMinor_nonneg {q : ℚ} (h : 0 ≤ q) : 0 ≤ toMinor q := by
  unfold toMinor roundHalfAway
  rw [if_neg (not_lt.mpr (mul_nonneg h (by norm_num)))]
  have h2 : (0 : ℚ) ≤ q * 100 + 1/2 :=
    add_nonneg (mul_nonneg h (by norm_num)) (by norm_num)
  have := Int.floor_nonneg.mpr h2
  omega

/-- A found wallet row is a member of the table with the looked-up
key. -/
theorem lookupW_mem {ws : Wallets} {k : WKey} {w : Wallet}
    (h : lookupW ws k = some w) : (k, w) ∈ ws := by
  induction ws with
  | nil => simp [lookupW] at h
  | cons e rest ih =>
    obtain ⟨e1, e2⟩ := e
    by_cases he : e1 = k
    · subst he
      have hc : ((e1, e2) : WKey × Wallet).1 = e1 := rfl
      simp only [lookupW, hc, if_pos rfl, if_true, Option.some.injEq] at h
      subst h
      exact List.mem_cons_self _ _
    · have hc : ¬ (((e1, e2) : WKey × Wallet).1 = k) := he
      simp only [lookupW, if_neg hc] at h
      exact List.mem_cons_of_mem _ (ih h)

/-- The spendable-balance invariant survives the wallet back-fill (a
new row has balance 0 and locked 0). -/
theorem WalletsInv_ensureAll {ws : Wallets} (h : WalletsInv ws) (u : String) :
    WalletsInv (ensure_all_currency_wallets ws u) := by
  unfold ensure_all_currency_wallets
  have hgen : ∀ (l : List String) (ws0 : Wallets), WalletsInv ws0 →
      WalletsInv (l.foldl (fun acc c => ensureOneWallet acc u c) ws0) := by
    intro l
    induction l with
    | nil => intro ws0 h0; exact h0
    | cons c rest ih =>
      intro ws0 h0
      simp only [List.foldl_cons]
      refine ih _ ?_
      unfold ensureOneWallet
      split
      · exact h0
      · intro e he
        rcases List.mem_append.mp he with h1 | h2
        · exact h0 e h1
        · simp only [List.mem_singleton] at h2
          subst h2
          exact le_refl 0
  exact hgen _ ws h

/-- An existing key survives the back-fill of one wallet row. -/
theorem lookupW_ensureOne_isSome {ws : Wallets} {k : WKey}
    (h : (lookupW ws k).isSome) (u c : String) :
    (lookupW (ensureOneWallet ws u c) k).isSome := by
  unfold ensureOneWallet
  split
  · exact h
  · rw [lookupW_append]
    cases hk : lookupW ws k with
    | none => rw [hk] at h; simp at h
    | some w => simp

/-- A present key stays present through the back-fill fold. -/
theorem lookupW_foldl_ensure_isSome {k : WKey} (l : List String) (ws : Wallets)
    (u : String) (h : (lookupW ws k).isSome) :
    (lookupW (l.foldl (fun acc c => ensureOneWallet acc u c) ws) k).isSome := by
  induction l generalizing ws with
  | nil => exact h
  | cons c rest ih =>
    simp only [List.foldl_cons]
    exact ih _ (lookupW_ensureOne_isSome h u c)

/-- After the back-fill, the user owns a row for every supported
currency. -/
theorem lookupW_ensureAll_isSome (ws : Wallets) (u : String) {c : String}
    (hc : c ∈ SUPPORTED_CURRENCIES) :
    (lookupW (ensure_all_currency_wallets ws u) (u, c)).isSome := by
  unfold ensure_all_currency_wallets
  have hone : ∀ ws0 : Wallets, (lookupW (ensureOneWallet ws0 u c) (u, c)).isSome := by
    intro ws0
    unfold ensureOneWallet
    split
    · assumption
    · rw [lookupW_append]
      cases hk : lookupW ws0 (u, c) with
      | none => simp
      | some w => simp
  have hgen : ∀ (l : List String) (ws0 : Wallets), c ∈ l →
      (lookupW (l.foldl (fun acc c2 => ensureOneWallet acc u c2) ws0) (u, c)).isSome := by
    intro l
    induction l with
    | nil => intro ws0 h0; simp at h0
    | cons c2 rest ih =>
      intro ws0 h0
      simp only [List.foldl_cons]
      rcases List.mem_cons.mp h0 with h1 | h2
      · subst h1
        exact lookupW_foldl_ensure_isSome rest _ u (hone ws0)
      · exact ih _ h2
  exact hgen _ ws hc

/-- One callback delivery on a PENDING record, with the handler's
leading guards discharged. -/
theorem mpesa_callback_pending_eq (d : SendDeps) (st : St) (cb : ParsedCallback)
    (rec : MTx) (hck : ¬ cb.checkout_request_id = "")
    (hfind : st.mpesa.find?
      (fun m => decide (m.checkout_request_id = some cb.checkout_request_id)) = some rec)
    (hpend : rec.status = "PENDING") :
    mpesa_callback d st cb =
      (if ¬ cb.success then
        fail_mpesa_tx st rec.internal_ref cb.result_code cb.result_desc
      else if ¬ cb.receipt_number = "" ∧
          (st.mpesa.find? (fun m => decide (m.mpesa_receipt = some cb.receipt_number))).isSome then
        st
      else if 1 < |cb.amount - (rec.amount_kes : ℚ) / 100| then
        fail_mpesa_tx st rec.internal_ref (-98) "Amount mismatch"
      else
        match deposit d st rec.user_id cb.amount "KES" with
        | (.failure msg, st2) =>
          fail_mpesa_tx st2 rec.internal_ref (-97)
            (String.append "Wallet credit failed: " msg)
        | (.success tx_id _ _ _, st2) =>
          confirm_mpesa_tx st2 rec.internal_ref cb.result_code cb.result_desc
            cb.amount cb.receipt_number cb.phone tx_id) := by
  unfold mpesa_callback
  rw [if_neg hck, hfind]
  dsimp only
  rw [if_neg (not_not_intro hpend)]

/-- Case analysis of one delivery: either the state is unchanged (for
every dependency bundle), or the settlement table is rewritten by a
checkout-preserving map that moves the found record to a terminal
status. -/
theorem mpesa_callback_cases (d : SendDeps) (st : St) (cb : ParsedCallback) :
    (∀ d2 : SendDeps, mpesa_callback d2 st cb = st) ∨
    (∃ rec g, st.mpesa.find?
        (fun m => decide (m.checkout_request_id = some cb.checkout_request_id)) =
        some rec ∧
      (∀ m, (g m).checkout_request_id = m.checkout_request_id) ∧
      (mpesa_callback d st cb).mpesa = st.mpesa.map g ∧
      ¬ (g rec).status = "PENDING") := by
  by_cases hck : cb.checkout_request_id = ""
  · left
    intro d2
    unfold mpesa_callback
    rw [if_pos hck]
  cases hfind : st.mpesa.find?
      (fun m => decide (m.checkout_request_id = some cb.checkout_request_id)) with
  | none =>
    left
    intro d2
    unfold mpesa_callback
    rw [if_neg hck, hfind]
  | some rec =>
    by_cases hpend : rec.status = "PENDING"
    case neg =>
      left
      intro d2
      exact mpesa_callback_noop_of_terminal d2 st cb rec hfind hpend
    case pos =>
      by_cases hsucc : cb.success = true
      case neg =>
        right
        refine ⟨rec, fun m => if m.internal_ref = rec.internal_ref then
          { m with
            status := "FAILED",
            result_code := some cb.result_code,
            result_desc := some cb.result_desc } else m, ?_, ?_, ?_, ?_⟩
        · rfl
        · intro m
          dsimp only
          split <;> rfl
        · rw [mpesa_callback_pending_eq d st cb rec hck hfind hpend, if_pos hsucc]
          rfl
        · simp
      case pos =>
        by_cases hdup : ¬ cb.receipt_number = "" ∧
            (st.mpesa.find? (fun m => decide (m.mpesa_receipt = some cb.receipt_number))).isSome
        · left
          intro d2
          rw [mpesa_callback_pending_eq d2 st cb rec hck hfind hpend,
            if_neg (not_not_intro hsucc), if_pos hdup]
        · by_cases hamt : 1 < |cb.amount - (rec.amount_kes : ℚ) / 100|
          · right
            refine ⟨rec, fun m => if m.internal_ref = rec.internal_ref then
              { m with
                status := "FAILED",
                result_code := some (-98),
                result_desc := some "Amount mismatch" } else m, ?_, ?_, ?_, ?_⟩
            · rfl
            · intro m
              dsimp only
              split <;> rfl
            · rw [mpesa_callback_pending_eq d st cb rec hck hfind hpend,
                if_neg (not_not_intro hsucc), if_neg hdup, if_pos hamt]
              rfl
            · simp
          · rcases hdep : deposit d st rec.user_id cb.amount "KES" with ⟨out, st2⟩
            have hst2 : st2.mpesa = st.mpesa := by
              have := deposit_mpesa_eq d st rec.user_id cb.amount "KES"
              rw [hdep] at this
              exact this
            cases out with
            | failure msg =>
              right
              refine ⟨rec, fun m => if m.internal_ref = rec.internal_ref then
                { m with
                  status := "FAILED",
                  result_code := some (-97),
                  result_desc := some (String.append "Wallet credit failed: " msg) }
                else m, ?_, ?_, ?_, ?_⟩
              · rfl
              · intro m
                dsimp only
                split <;> rfl
              · rw [mpesa_callback_pending_eq d st cb rec hck hfind hpend,
                  if_neg (not_not_intro hsucc), if_neg hdup, if_neg hamt, hdep]
                dsimp only [fail_mpesa_tx]
                rw [hst2]
              · simp
            | success tx_id a4 f4 t4 =>
              right
              refine ⟨rec, fun m => if m.internal_ref = rec.internal_ref then
                { m with
                  status := "CONFIRMED",
                  result_code := some cb.result_code,
                  result_desc := some cb.result_desc,
                  mpesa_receipt := some cb.receipt_number,
                  mpesa_phone := some cb.phone,
                  wallet_credited := true,
                  chainpay_tx_id := some tx_id } else m, ?_, ?_, ?_, ?_⟩
              · rfl
              · intro m
                dsimp only
                split <;> rfl
              · rw [mpesa_callback_pending_eq d st cb rec hck hfind hpend,
                  if_neg (not_not_intro hsucc), if_neg hdup, if_neg hamt, hdep]
                dsimp only [confirm_mpesa_tx]
                rw [hst2]
              · simp

/-- find? by checkout id commutes with the record rewrite of
confirm_mpesa_tx (which never touches checkout_request_id). -/
theorem confirm_mpesa_tx_find (st : St) (iref : String) (rc : Int)
    (rd : String) (ak : ℚ) (rcpt ph txid : String) (ck : String) :
    ((confirm_mpesa_tx st iref rc rd ak rcpt ph txid).mpesa.find?
      (fun m => decide (m.checkout_request_id = some ck))) =
    (st.mpesa.find? (fun m => decide (m.checkout_request_id = some ck))).map
      (fun m => if m.internal_ref = iref then
        { m with
          status := "CONFIRMED",
          result_code := some rc,
          result_desc := some rd,
          mpesa_receipt := some rcpt,
          mpesa_phone := some ph,
          wallet_credited := true,
          chainpay_tx_id := some txid } else m) := by
  dsimp only [confirm_mpesa_tx]
  refine find?_map_of_pred _ _ ?_ st.mpesa
  intro a
  dsimp only
  split <;> rfl

/-- Falsifies C2 as frozen: a genuinely successful payment of 20,000
KES (record PENDING, callback success, amount within the 1 KES
tolerance) is NOT credited even once — the credit path funnels through
WalletService.deposit, whose 10,000 single-deposit ceiling refuses it,
so the handler marks the record FAILED with code -97, the wallet
balance is unchanged and no transaction row is written. -/
theorem mpesa_callback_credit_missed_counterexample :
    (∃ rec ∈ mpesaBigSt.mpesa,
      rec.checkout_request_id = some bigCb.checkout_request_id ∧
      rec.status = "PENDING" ∧
      bigCb.success = true ∧
      |bigCb.amount - (rec.amount_kes : ℚ) / 100| ≤ 1) ∧
    walletBal (mpesa_callback noDeps mpesaBigSt bigCb).wallets ("carol", "KES") =
      walletBal mpesaBigSt.wallets ("carol", "KES") ∧
    (mpesa_callback noDeps mpesaBigSt bigCb).txs = [] ∧
    (∃ rec2 ∈ (mpesa_callback noDeps mpesaBigSt bigCb).mpesa,
      rec2.internal_ref = "ref2" ∧ rec2.status = "FAILED" ∧
      rec2.result_code = some (-97) ∧ rec2.wallet_credited = false) := by
  have heval : mpesa_callback noDeps mpesaBigSt bigCb =
      fail_mpesa_tx mpesaBigSt "ref2" (-97)
        (String.append "Wallet credit failed: "
          "Single deposit limit: 10,000 equivalent") := by
    have hdepBig : deposit noDeps mpesaBigSt "carol" (20000 : ℚ) "KES" =
        (.failure "Single deposit limit: 10,000 equivalent", mpesaBigSt) := by
      unfold deposit
      rw [if_neg (by norm_num : ¬ (20000 : ℚ) ≤ 0),
        if_pos (by norm_num : (10000 : ℚ) < 20000)]
    rw [mpesa_callback_pending_eq noDeps mpesaBigSt bigCb
      ⟨"ref2", "carol", "+254700000002", 2000000, some "CK2", "PENDING", none,
        none, none, none, false, none, 120⟩ (by decide) (by decide) rfl]
    dsimp only [bigCb]
    rw [if_neg (by decide : ¬ ¬ (true : Bool) = true),
      if_neg (by decide : ¬ (¬ ("RCPT9" : String) = "" ∧
        (mpesaBigSt.mpesa.find?
          (fun m => decide (m.mpesa_receipt = some "RCPT9"))).isSome)),
      if_neg (by norm_num : ¬ (1 : ℚ) < |(20000 : ℚ) - ((2000000 : Int) : ℚ) / 100|),
      hdepBig]
  refine ⟨⟨⟨"ref2", "carol", "+254700000002", 2000000, some "CK2", "PENDING", none,
      none, none, none, false, none, 120⟩, by decide, rfl, rfl, rfl,
      by norm_num [bigCb]⟩, ?_, ?_, ?_⟩
  · rw [heval]
    rfl
  · rw [heval]
    rfl
  · rw [heval]
    decide

/-- C2 amended: delivering the same callback a second time is always a
no-op (whatever the first delivery did, replaying it returns the state
unchanged, so N > 1 deliveries act exactly like the first); and when a
successful in-tolerance callback for a PENDING record passes the
deposit validation (positive amount at most 10,000), the user's KES
wallet is credited exactly once by the rounded minor amount, exactly
one CONFIRMED DEPOSIT row is appended, and the record becomes
CONFIRMED with wallet_credited set — but a genuinely successful
payment is credited at most once, not always exactly once (see the
counterexample: above the deposit ceiling the record is FAILED and no
credit happens). -/
theorem mpesa_callback_idempotent_spec :
    (∀ (d d2 : SendDeps) (st : St) (cb : ParsedCallback),
      mpesa_callback d2 (mpesa_callback d st cb) cb = mpesa_callback d st cb) ∧
    (∀ (d : SendDeps) (st : St) (cb : ParsedCallback) (rec : MTx),
      ¬ cb.checkout_request_id = "" →
      st.mpesa.find?
        (fun m => decide (m.checkout_request_id = some cb.checkout_request_id)) =
        some rec →
      rec.status = "PENDING" →
      cb.success = true →
      ¬ (¬ cb.receipt_number = "" ∧
        (st.mpesa.find?
          (fun m => decide (m.mpesa_receipt = some cb.receipt_number))).isSome) →
      ¬ 1 < |cb.amount - (rec.amount_kes : ℚ) / 100| →
      ¬ cb.amount ≤ 0 →
      ¬ 10000 < cb.amount →
      WalletsInv st.wallets →
      walletBal (mpesa_callback d st cb).wallets (rec.user_id, "KES") =
        walletBal st.wallets (rec.user_id, "KES") + toMinor cb.amount ∧
      (mpesa_callback d st cb).txs = st.txs ++
        [⟨d.newTxId, "SYSTEM", rec.user_id, toMinor cb.amount, "KES", "DEPOSIT",
          0, d.now, "CONFIRMED"⟩] ∧
      ∃ rec2, (mpesa_callback d st cb).mpesa.find?
          (fun m => decide (m.checkout_request_id = some cb.checkout_request_id)) =
          some rec2 ∧
        rec2.status = "CONFIRMED" ∧ rec2.wallet_credited = true) := by
  constructor
  · intro d d2 st cb
    rcases mpesa_callback_cases d st cb with h | ⟨rec, g, hfind, hpres, hmap, hterm⟩
    · rw [h d]
      exact h d2
    · have hp : ∀ a : MTx,
          (decide ((g a).checkout_request_id = some cb.checkout_request_id)) =
          (decide (a.checkout_request_id = some cb.checkout_request_id)) := by
        intro a
        rw [hpres a]
      have hfind1 : (mpesa_callback d st cb).mpesa.find?
          (fun m => decide (m.checkout_request_id = some cb.checkout_request_id)) =
          some (g rec) := by
        rw [hmap, find?_map_of_pred g
          (fun m => decide (m.checkout_request_id = some cb.checkout_request_id))
          hp st.mpesa, hfind]
        rfl
      exact mpesa_callback_noop_of_terminal d2 _ cb (g rec) hfind1 hterm
  · intro d st cb rec hck hfind hpend hsucc hdup hamt hpos hcap hinv
    have hker : ("KES" : String) ∈ SUPPORTED_CURRENCIES := by decide
    obtain ⟨w1, hw1⟩ := Option.isSome_iff_exists.mp
      (lookupW_ensureAll_isSome st.wallets rec.user_id hker)
    have hw1inv : w1.locked ≤ w1.balance :=
      WalletsInv_ensureAll hinv rec.user_id _ (lookupW_mem hw1)
    have hminor : 0 ≤ toMinor cb.amount := toMinor_nonneg (le_of_lt (not_le.mp hpos))
    have hguard : ¬ (w1.balance + toMinor cb.amount < w1.locked) := by omega
    have hdep : deposit d st rec.user_id cb.amount "KES" =
        (.success d.newTxId cb.amount 0 cb.amount,
         ⟨writeBalance (ensure_all_currency_wallets st.wallets rec.user_id)
            (rec.user_id, "KES") (w1.balance + toMinor cb.amount),
          st.txs ++ [⟨d.newTxId, "SYSTEM", rec.user_id, toMinor cb.amount, "KES",
            "DEPOSIT", 0, d.now, "CONFIRMED"⟩],
          st.mpesa, st.reversals⟩) := by
      simp only [deposit, if_neg hpos, if_neg hcap, if_neg (not_not_intro hker)]
      rw [update_balance_eq_of_ok hw1 hguard]
    have hmain : mpesa_callback d st cb =
        confirm_mpesa_tx
          ⟨writeBalance (ensure_all_currency_wallets st.wallets rec.user_id)
              (rec.user_id, "KES") (w1.balance + toMinor cb.amount),
            st.txs ++ [⟨d.newTxId, "SYSTEM", rec.user_id, toMinor cb.amount, "KES",
              "DEPOSIT", 0, d.now, "CONFIRMED"⟩],
            st.mpesa, st.reversals⟩
          rec.internal_ref cb.result_code cb.result_desc cb.amount
          cb.receipt_number cb.phone d.newTxId := by
      rw [mpesa_callback_pending_eq d st cb rec hck hfind hpend,
        if_neg (not_not_intro hsucc), if_neg hdup, if_neg hamt, hdep]
    refine ⟨?_, ?_, ?_⟩
    · rw [hmain]
      have hL : walletBal
          (writeBalance (ensure_all_currency_wallets st.wallets rec.user_id)
            (rec.user_id, "KES") (w1.balance + toMinor cb.amount))
          (rec.user_id, "KES") = w1.balance + toMinor cb.amount := by
        unfold walletBal
        rw [lookupW_writeBalance_self hw1]
        rfl
      have hR : walletBal st.wallets (rec.user_id, "KES") = w1.balance := by
        have h2 : walletBal (ensure_all_currency_wallets st.wallets rec.user_id)
            (rec.user_id, "KES") = w1.balance := by
          unfold walletBal
          rw [hw1]
          rfl
        rw [← walletBal_ensureAll st.wallets rec.user_id (rec.user_id, "KES"), h2]
      show walletBal
        (writeBalance (ensure_all_currency_wallets st.wallets rec.user_id)
          (rec.user_id, "KES") (w1.balance + toMinor cb.amount))
        (rec.user_id, "KES") = _
      rw [hL, hR]
    · rw [hmain]
      rfl
    · rw [hmain, confirm_mpesa_tx_find]
      dsimp only
      rw [hfind]
      refine ⟨_, rfl, ?_, ?_⟩
      · dsimp only
        rw [if_pos rfl]
      · dsimp only
        rw [if_pos rfl]

/-- Witness for C2 amended: the 500 KES settlement CK3 is credited once
(dave's KES wallet rises by 50000 minor units from 0), the record ends
CONFIRMED with wallet_credited, and replaying the same callback leaves
the state fixed. -/
theorem mpesa_callback_idempotent_spec_witness :
    walletBal (mpesa_callback noDeps mpesaOkSt okCb).wallets ("dave", "KES") =
      walletBal mpesaOkSt.wallets ("dave", "KES") + toMinor okCb.amount ∧
    (∃ rec2, (mpesa_callback noDeps mpesaOkSt okCb).mpesa.find?
        (fun m => decide (m.checkout_request_id = some okCb.checkout_request_id)) =
        some rec2 ∧
      rec2.status = "CONFIRMED" ∧ rec2.wallet_credited = true) ∧
    mpesa_callback noDeps (mpesa_callback noDeps mpesaOkSt okCb) okCb =
      mpesa_callback noDeps mpesaOkSt okCb := by
  obtain ⟨h1, h2, h3⟩ := mpesa_callback_idempotent_spec.2 noDeps mpesaOkSt okCb
    ⟨"ref3", "dave", "+254700000003", 50000, some "CK3", "PENDING", none,
      none, none, none, false, none, 120⟩
    (by decide) (by decide) rfl rfl (by decide)
    (by norm_num [okCb]) (by norm_num [okCb]) (by norm_num [okCb])
    (by simp [WalletsInv, mpesaOkSt])
  exact ⟨h1, h3, mpesa_callback_idempotent_spec.1 noDeps noDeps mpesaOkSt okCb⟩

/-- writeBalance keeps the key column unchanged. -/
theorem keys_writeBalance (ws : Wallets) (k : WKey) (b : Int) :
    (writeBalance ws k b).map Prod.fst = ws.map Prod.fst := by
  induction ws with
  | nil => rfl
  | cons e rest ih =>
    simp only [writeBalance, List.map_cons] at ih ⊢
    rw [ih]
    congr 1
    split <;> rfl

/-- addBalanceAll keeps the key column unchanged. -/
theorem keys_addBalanceAll (ws : Wallets) (k : WKey) (δ : Int) :
    (addBalanceAll ws k δ).map Prod.fst = ws.map Prod.fst := by
  induction ws with
  | nil => rfl
  | cons e rest ih =>
    simp only [addBalanceAll, List.map_cons] at ih ⊢
    rw [ih]
    congr 1
    split <;> rfl

/-- A key of the table has a row. -/
theorem lookupW_isSome_of_mem_keys {ws : Wallets} {k : WKey}
    (h : k ∈ ws.map Prod.fst) : (lookupW ws k).isSome := by
  induction ws with
  | nil => simp at h
  | cons e rest ih =>
    rw [List.map_cons, List.mem_cons] at h
    by_cases he : e.1 = k
    · simp [lookupW, he]
    · rcases h with h | h
      · exact absurd h.symm he
      · simp only [lookupW, if_neg he]
        exact ih h

/-- update_balance keeps the key column unchanged. -/
theorem update_balance_keys {ws ws2 : Wallets} {u c : String} {δ : Int}
    (h : update_balance ws u c δ = some ws2) :
    ws2.map Prod.fst = ws.map Prod.fst := by
  simp only [update_balance] at h
  repeat' split at h
  · exact Option.noConfusion h
  · exact Option.noConfusion h
  · rw [← Option.some.inj h]
    exact keys_writeBalance ws _ _

/-- The UNIQUE(user_id, currency) shape survives the back-fill of one
row. -/
theorem keys_ensureOne_nodup {ws : Wallets} (h : (ws.map Prod.fst).Nodup)
    (u c : String) : ((ensureOneWallet ws u c).map Prod.fst).Nodup := by
  unfold ensureOneWallet
  split
  · exact h
  · rename_i hns
    rw [List.map_append]
    refine List.Nodup.append h (List.nodup_singleton _) ?_
    intro a ha hb
    simp only [List.map_cons, List.map_nil, List.mem_singleton] at hb
    subst hb
    exact hns (lookupW_isSome_of_mem_keys ha)

/-- The UNIQUE(user_id, currency) shape survives the full back-fill. -/
theorem keys_ensureAll_nodup {ws : Wallets} (h : (ws.map Prod.fst).Nodup)
    (u : String) : ((ensure_all_currency_wallets ws u).map Prod.fst).Nodup := by
  unfold ensure_all_currency_wallets
  have hgen : ∀ (l : List String) (ws0 : Wallets), (ws0.map Prod.fst).Nodup →
      ((l.foldl (fun acc c => ensureOneWallet acc u c) ws0).map Prod.fst).Nodup := by
    intro l
    induction l with
    | nil => intro ws0 h0; exact h0
    | cons c rest ih =>
      intro ws0 h0
      simp only [List.foldl_cons]
      exact ih _ (keys_ensureOne_nodup h0 u c)
  exact hgen _ ws h

/-- Writing a nonnegative balance keeps every row at locked 0 and
nonnegative balance. -/
theorem WalletsOK_writeBalance {ws : Wallets} (h : WalletsOK ws) {b : Int}
    (hb : 0 ≤ b) (k : WKey) : WalletsOK (writeBalance ws k b) := by
  intro e he
  simp only [writeBalance] at he
  obtain ⟨e0, he0, rfl⟩ := List.mem_map.mp he
  split
  · exact ⟨(h e0 he0).1, hb⟩
  · exact h e0 he0

/-- The zero-locked nonnegative shape survives the back-fill of one
row. -/
theorem WalletsOK_ensureOne {ws : Wallets} (h : WalletsOK ws) (u c : String) :
    WalletsOK (ensureOneWallet ws u c) := by
  unfold ensureOneWallet
  split
  · exact h
  · intro e he
    rcases List.mem_append.mp he with h1 | h2
    · exact h e h1
    · rw [List.mem_singleton] at h2
      subst h2
      exact ⟨rfl, le_refl 0⟩

/-- The zero-locked nonnegative shape survives the full back-fill. -/
theorem WalletsOK_ensureAll {ws : Wallets} (h : WalletsOK ws) (u : String) :
    WalletsOK (ensure_all_currency_wallets ws u) := by
  unfold ensure_all_currency_wallets
  have hgen : ∀ (l : List String) (ws0 : Wallets), WalletsOK ws0 →
      WalletsOK (l.foldl (fun acc c => ensureOneWallet acc u c) ws0) := by
    intro l
    induction l with
    | nil => intro ws0 h0; exact h0
    | cons c rest ih =>
      intro ws0 h0
      simp only [List.foldl_cons]
      exact ih _ (WalletsOK_ensureOne h0 u c)
  exact hgen _ ws h

/-- A successful update_balance keeps every row at locked 0 and
nonnegative balance: the guard forces the written balance above the
looked-up row's locked amount, which is 0. -/
theorem WalletsOK_update_balance {ws ws2 : Wallets} (h : WalletsOK ws)
    {u c : String} {δ : Int} (hup : update_balance ws u c δ = some ws2) :
    WalletsOK ws2 := by
  simp only [update_balance] at hup
  repeat' split at hup
  · exact Option.noConfusion hup
  · exact Option.noConfusion hup
  · rename_i row hlk hguard
    rw [← Option.some.inj hup]
    have h0 : row.locked = 0 := (h _ (lookupW_mem hlk)).1
    refine WalletsOK_writeBalance h ?_ _
    omega

/-- In a duplicate-free table, lookupW recovers exactly the member
row. -/
theorem lookupW_eq_of_mem_nodup (ws : Wallets) : ∀ (k : WKey) (w : Wallet),
    (ws.map Prod.fst).Nodup → (k, w) ∈ ws → lookupW ws k = some w := by
  induction ws with
  | nil =>
    intro k w _ hm
    simp at hm
  | cons e rest ih =>
    intro k w hnd hm
    rw [List.map_cons, List.nodup_cons] at hnd
    rcases List.mem_cons.mp hm with h1 | h2
    · rw [← h1]
      simp [lookupW]
    · by_cases he : e.1 = k
      · exfalso
        apply hnd.1
        rw [he]
        exact List.mem_map.mpr ⟨(k, w), h2, rfl⟩
      · simp only [lookupW, if_neg he]
        exact ih k w hnd.2 h2

/-- Shifting the unique row of a key by a delta that keeps its balance
nonnegative keeps every row at locked 0 and nonnegative balance. -/
theorem WalletsOK_addBalanceAll {ws : Wallets}
    (hnd : (ws.map Prod.fst).Nodup) (h : WalletsOK ws) {k : WKey} {w : Wallet}
    (hlk : lookupW ws k = some w) {δ : Int} (hge : 0 ≤ w.balance + δ) :
    WalletsOK (addBalanceAll ws k δ) := by
  intro e he
  simp only [addBalanceAll] at he
  obtain ⟨e0, he0, rfl⟩ := List.mem_map.mp he
  split
  · rename_i hk
    have hthis : lookupW ws k = some e0.2 := by
      rw [← hk]
      exact lookupW_eq_of_mem_nodup ws e0.1 e0.2 hnd he0
    rw [hlk] at hthis
    have he02 := Option.some.inj hthis
    refine ⟨(h e0 he0).1, ?_⟩
    rw [← he02]
    exact hge
  · exact h e0 he0

/-- Appending one row with a nonnegative amount keeps all amounts
nonnegative. -/
theorem TxsOK_append {txs : List TxRow} (h : TxsOK txs) {r : TxRow}
    (hr : 0 ≤ r.amount) : TxsOK (txs ++ [r]) := by
  intro x hx
  rcases List.mem_append.mp hx with h1 | h2
  · exact h x h1
  · rw [List.mem_singleton] at h2
    subst h2
    exact hr

/-- Back-filling wallets preserves the committed-state shape. -/
theorem StateOK_ensure {st : St} (hst : StateOK st) (u : String) :
    StateOK { st with wallets := ensure_all_currency_wallets st.wallets u } :=
  ⟨keys_ensureAll_nodup hst.1 u, WalletsOK_ensureAll hst.2.1 u, hst.2.2⟩

/-- One successful update_balance on the raw wallets plus one appended
row preserves the committed-state shape. -/
theorem StateOK_upd_append (st : St) (hst : StateOK st) {ws2 : Wallets}
    {u c : String} {δ : Int} (hup : update_balance st.wallets u c δ = some ws2)
    {r : TxRow} (hr : 0 ≤ r.amount) {m : List MTx} {rv : List RevRow} :
    StateOK ⟨ws2, st.txs ++ [r], m, rv⟩ := by
  refine ⟨?_, WalletsOK_update_balance hst.2.1 hup, TxsOK_append hst.2.2 hr⟩
  show (ws2.map Prod.fst).Nodup
  rw [update_balance_keys hup]
  exact hst.1

/-- One successful update_balance on the back-filled wallets plus one
appended row preserves the committed-state shape. -/
theorem StateOK_upd_append_ensure (st : St) (hst : StateOK st) (u0 : String)
    {ws2 : Wallets} {u c : String} {δ : Int}
    (hup : update_balance (ensure_all_currency_wallets st.wallets u0) u c δ = some ws2)
    {r : TxRow} (hr : 0 ≤ r.amount) {m : List MTx} {rv : List RevRow} :
    StateOK ⟨ws2, st.txs ++ [r], m, rv⟩ := by
  refine ⟨?_, WalletsOK_update_balance (WalletsOK_ensureAll hst.2.1 u0) hup,
    TxsOK_append hst.2.2 hr⟩
  show (ws2.map Prod.fst).Nodup
  rw [update_balance_keys hup]
  exact keys_ensureAll_nodup hst.1 u0

/-- Two chained successful update_balance calls on the back-filled
wallets plus one appended row preserve the committed-state shape. -/
theorem StateOK_upd2_append (st : St) (hst : StateOK st) (u0 : String)
    {ws2 ws3 : Wallets} {u1 c1 u2 c2 : String} {δ1 δ2 : Int}
    (h1 : update_balance (ensure_all_currency_wallets st.wallets u0) u1 c1 δ1 = some ws2)
    (h2 : update_balance ws2 u2 c2 δ2 = some ws3)
    {r : TxRow} (hr : 0 ≤ r.amount) {m : List MTx} {rv : List RevRow} :
    StateOK ⟨ws3, st.txs ++ [r], m, rv⟩ := by
  refine ⟨?_, WalletsOK_update_balance
    (WalletsOK_update_balance (WalletsOK_ensureAll hst.2.1 u0) h1) h2,
    TxsOK_append hst.2.2 hr⟩
  show (ws3.map Prod.fst).Nodup
  rw [update_balance_keys h2, update_balance_keys h1]
  exact keys_ensureAll_nodup hst.1 u0

/-- The half-up rounding of a nonnegative rational is nonnegative. -/
theorem roundHalfAway_nonneg {q : ℚ} (h : 0 ≤ q) : 0 ≤ roundHalfAway q := by
  unfold roundHalfAway
  rw [if_neg (not_lt.mpr h)]
  have h2 : (0 : ℚ) ≤ q + 1/2 := add_nonneg h (by norm_num)
  have := Int.floor_nonneg.mpr h2
  omega

/-- Half-up quantization of a nonnegative rational is nonnegative. -/
theorem quantizeHalfAway_nonneg {x : ℚ} (h : 0 ≤ x) (p : Nat) :
    0 ≤ quantizeHalfAway x p := by
  unfold quantizeHalfAway
  apply div_nonneg
  · exact_mod_cast roundHalfAway_nonneg (mul_nonneg h (by positivity))
  · positivity

/-- With nonnegative table rates and volatility factors, every resolved
live rate is nonnegative. -/
theorem get_live_rate_nonneg {fx : FxDeps}
    (hrate : ∀ x y r, fx.rate x y = some r → 0 ≤ r)
    (hvol : ∀ x y, 0 ≤ 1 + fx.vol x y) (f t : String) {m : ℚ}
    (h : get_live_rate fx f t = some m) : 0 ≤ m := by
  simp only [get_live_rate] at h
  split at h
  · rw [← Option.some.inj h]
    exact zero_le_one
  · rw [Option.map_eq_some'] at h
    obtain ⟨r, hbase, hm⟩ := h
    have hr : 0 ≤ r := by
      cases h1 : fx.rate f t with
      | some r1 =>
        rw [h1] at hbase
        dsimp only at hbase
        exact (Option.some.inj hbase) ▸ hrate f t r1 h1
      | none =>
        rw [h1] at hbase
        dsimp only at hbase
        cases h2 : fx.rate f "USD" with
        | none =>
          rw [h2] at hbase
          dsimp only at hbase
          exact Option.noConfusion hbase
        | some ra =>
          rw [h2] at hbase
          try dsimp only at hbase
          cases h3 : fx.rate "USD" t with
          | none =>
            rw [h3] at hbase
            dsimp only at hbase
            exact Option.noConfusion hbase
          | some rb =>
            rw [h3] at hbase
            dsimp only at hbase
            exact (Option.some.inj hbase) ▸
              mul_nonneg (hrate f "USD" ra h2) (hrate "USD" t rb h3)
    rw [← hm]
    exact mul_nonneg hr (hvol f t)

/-- With nonnegative rates, a resolved quote carries a nonnegative
target amount. -/
theorem quote_to_amount_nonneg {fx : FxDeps}
    (hrate : ∀ x y r, fx.rate x y = some r → 0 ≤ r)
    (hvol : ∀ x y, 0 ≤ 1 + fx.vol x y) {f t : String} {a : ℚ} (ha : 0 ≤ a)
    {q : Quote} (hq : get_conversion_quote fx f t a = some q) :
    0 ≤ q.to_amount := by
  simp only [get_conversion_quote] at hq
  cases hmid : get_live_rate fx f t with
  | none =>
    rw [hmid] at hq
    exact Option.noConfusion hq
  | some mid =>
    rw [hmid] at hq
    have hm0 : 0 ≤ mid := get_live_rate_nonneg hrate hvol f t hmid
    rw [← Option.some.inj hq]
    exact quantizeHalfAway_nonneg
      (mul_nonneg ha (mul_nonneg hm0 (by norm_num))) 4

/-- deposit preserves the committed-state shape. -/
theorem StateOK_deposit_eq (d : SendDeps) (st : St) (u : String) (a : ℚ)
    (c : String) (hst : StateOK st) (out : SendOutcome) (st2 : St)
    (h : deposit d st u a c = (out, st2)) : StateOK st2 := by
  simp only [deposit] at h
  repeat' split at h
  all_goals rw [Prod.mk.injEq] at h
  all_goals obtain ⟨h1, h2⟩ := h
  all_goals subst h2
  all_goals try exact hst
  all_goals try exact StateOK_ensure hst u
  all_goals exact (StateOK_upd_append_ensure st hst u (by assumption)
    (toMinor_nonneg (le_of_lt (not_le.mp (by assumption)))))

set_option maxHeartbeats 1600000 in
/-- send_money preserves the committed-state shape. -/
theorem StateOK_send_eq (d : SendDeps) (st : St) (s p : String) (a : ℚ)
    (c : String) (hst : StateOK st) (out : SendOutcome) (st2 : St)
    (h : send_money d st s p a c = (out, st2)) : StateOK st2 := by
  simp only [send_money] at h
  repeat' split at h
  all_goals rw [Prod.mk.injEq] at h
  all_goals obtain ⟨h1, h2⟩ := h
  all_goals subst h2
  all_goals try exact hst
  all_goals try exact StateOK_ensure hst _
  all_goals exact (StateOK_upd2_append st hst _ (by assumption) (by assumption)
    (toMinor_nonneg (le_of_lt (not_le.mp (by assumption)))))

/-- withdraw preserves the committed-state shape. -/
theorem StateOK_withdraw_eq (d : SendDeps) (st : St) (u : String) (a : ℚ)
    (c : String) (hst : StateOK st) (out : SendOutcome) (st2 : St)
    (h : withdraw d st u a c = (out, st2)) : StateOK st2 := by
  simp only [withdraw] at h
  repeat' split at h
  all_goals rw [Prod.mk.injEq] at h
  all_goals obtain ⟨h1, h2⟩ := h
  all_goals subst h2
  all_goals try exact hst
  all_goals exact (StateOK_upd_append st hst (by assumption)
    (toMinor_nonneg (le_of_lt (not_le.mp (by assumption)))))

/-- Closing step of the convert_currency success branch: both wallet
writes stay nonnegative and the key column is untouched. -/
theorem StateOK_convert_close (st : St) (hst : StateOK st) (u f2 t2 : String)
    {srcRow tgtRow : Wallet} {q : Quote} {a : ℚ} {fx : FxDeps}
    (hrate : ∀ x y r, fx.rate x y = some r → 0 ≤ r)
    (hvol : ∀ x y, 0 ≤ 1 + fx.vol x y)
    (hq : get_conversion_quote fx f2 t2 a = some q)
    (hpos : ¬ a ≤ 0)
    (hsrc : lookupW (ensure_all_currency_wallets st.wallets u) (u, f2) = some srcRow)
    (hguard : ¬ (srcRow.balance - srcRow.locked < toMinor a))
    (htgt : lookupW (writeBalance (ensure_all_currency_wallets st.wallets u) (u, f2)
      (srcRow.balance - toMinor a)) (u, t2) = some tgtRow)
    {r : TxRow} (hr : 0 ≤ r.amount) {m : List MTx} {rv : List RevRow} :
    StateOK ⟨writeBalance (writeBalance (ensure_all_currency_wallets st.wallets u)
        (u, f2) (srcRow.balance - toMinor a)) (u, t2)
        (tgtRow.balance + toMinor q.to_amount),
      st.txs ++ [r], m, rv⟩ := by
  have hsl : srcRow.locked = 0 :=
    (WalletsOK_ensureAll hst.2.1 u _ (lookupW_mem hsrc)).1
  have h1 : (0 : Int) ≤ srcRow.balance - toMinor a := by omega
  have hOK2 : WalletsOK (writeBalance (ensure_all_currency_wallets st.wallets u)
      (u, f2) (srcRow.balance - toMinor a)) :=
    WalletsOK_writeBalance (WalletsOK_ensureAll hst.2.1 u) h1 _
  have htb : 0 ≤ tgtRow.balance := (hOK2 _ (lookupW_mem htgt)).2
  have hq0 : 0 ≤ q.to_amount :=
    quote_to_amount_nonneg hrate hvol (le_of_lt (not_le.mp hpos)) hq
  refine ⟨?_, WalletsOK_writeBalance hOK2
    (add_nonneg htb (toMinor_nonneg hq0)) _, TxsOK_append hst.2.2 hr⟩
  show ((writeBalance (writeBalance (ensure_all_currency_wallets st.wallets u)
    (u, f2) (srcRow.balance - toMinor a)) (u, t2)
    (tgtRow.balance + toMinor q.to_amount)).map Prod.fst).Nodup
  rw [keys_writeBalance, keys_writeBalance]
  exact keys_ensureAll_nodup hst.1 u

/-- convert_currency preserves the committed-state shape, given
nonnegative stored rates and volatility factors. -/
theorem StateOK_convert_eq (d : SendDeps) (st : St) (u f2 t2 : String) (a : ℚ)
    (hst : StateOK st)
    (hrate : ∀ x y r, d.fx.rate x y = some r → 0 ≤ r)
    (hvol : ∀ x y, 0 ≤ 1 + d.fx.vol x y) (out : SendOutcome) (st2 : St)
    (h : convert_currency d st u f2 t2 a = (out, st2)) : StateOK st2 := by
  simp only [convert_currency] at h
  repeat' split at h
  all_goals rw [Prod.mk.injEq] at h
  all_goals obtain ⟨h1, h2⟩ := h
  all_goals subst h2
  all_goals try exact hst
  all_goals try exact StateOK_ensure hst u
  all_goals exact (StateOK_convert_close st hst u f2 t2 hrate hvol
    (by assumption) (by assumption) (by assumption) (by assumption)
    (by assumption) (toMinor_nonneg (le_of_lt (not_le.mp (by assumption)))))

/-- reject_reversal preserves the committed-state shape (wallets are
untouched; the status rewrite keeps every amount). -/
theorem StateOK_reject_eq (st : St) (rid aid note : String) (hst : StateOK st)
    (out : RevOutcome) (st2 : St)
    (h : reject_reversal st rid aid note = (out, st2)) : StateOK st2 := by
  simp only [reject_reversal] at h
  repeat' split at h
  all_goals rw [Prod.mk.injEq] at h
  all_goals obtain ⟨h1, h2⟩ := h
  all_goals subst h2
  · exact hst
  · refine ⟨hst.1, hst.2.1, ?_⟩
    intro r hr
    obtain ⟨r0, hr0, rfl⟩ := List.mem_map.mp hr
    have h0 := hst.2.2 r0 hr0
    split
    · exact h0
    · exact h0

/-- approve_reversal preserves the committed-state shape: the guard
keeps the debited row nonnegative, the stored amount is nonnegative, so
the credited row stays nonnegative too. -/
theorem StateOK_approve_eq (d : SendDeps) (st : St) (rid aid note : String)
    (hst : StateOK st) (out : RevOutcome) (st2 : St)
    (h : approve_reversal d st rid aid note = (out, st2)) : StateOK st2 := by
  simp only [approve_reversal] at h
  repeat' split at h
  all_goals rw [Prod.mk.injEq] at h
  all_goals obtain ⟨h1, h2⟩ := h
  all_goals subst h2
  all_goals try exact hst
  rename_i rev hrev xt2 t htx xw1 xw2 sw rw0 hsw hrw hguard
  have hta : 0 ≤ t.amount := hst.2.2 t (List.mem_of_find?_eq_some htx)
  have hswb : 0 ≤ sw.balance := (hst.2.1 _ (lookupW_mem hsw)).2
  have hOK1 : WalletsOK (addBalanceAll st.wallets (t.sender, t.currency) t.amount) :=
    WalletsOK_addBalanceAll hst.1 hst.2.1 hsw (by omega)
  have hnd1 : ((addBalanceAll st.wallets (t.sender, t.currency) t.amount).map
      Prod.fst).Nodup := by
    rw [keys_addBalanceAll]
    exact hst.1
  have hOK2 : WalletsOK (addBalanceAll
      (addBalanceAll st.wallets (t.sender, t.currency) t.amount)
      (t.recipient, t.currency) (-t.amount)) := by
    by_cases hks : ((t.sender, t.currency) : WKey) = (t.recipient, t.currency)
    · have hsrw : sw = rw0 := by
        rw [hks] at hsw
        exact Option.some.inj (hsw.symm.trans hrw)
      have hlk1 : lookupW (addBalanceAll st.wallets (t.sender, t.currency) t.amount)
          (t.recipient, t.currency) =
          some { sw with balance := sw.balance + t.amount } := by
        rw [← hks, lookupW_addBalanceAll_self, hsw]
        rfl
      exact WalletsOK_addBalanceAll hnd1 hOK1 hlk1
        (show 0 ≤ sw.balance + t.amount + -t.amount by omega)
    · have hlk1 : lookupW (addBalanceAll st.wallets (t.sender, t.currency) t.amount)
          (t.recipient, t.currency) = some rw0 := by
        rw [lookupW_addBalanceAll_ne _ (fun hEq => hks hEq.symm), hrw]
      exact WalletsOK_addBalanceAll hnd1 hOK1 hlk1 (by omega)
  refine ⟨?_, hOK2, ?_⟩
  · show (((addBalanceAll (addBalanceAll st.wallets (t.sender, t.currency) t.amount)
      (t.recipient, t.currency) (-t.amount))).map Prod.fst).Nodup
    rw [keys_addBalanceAll, keys_addBalanceAll]
    exact hst.1
  · intro r hr
    obtain ⟨r0, hr0, rfl⟩ := List.mem_map.mp hr
    have h0 : 0 ≤ r0.amount := by
      rcases List.mem_append.mp hr0 with ha | hb
      · exact hst.2.2 r0 ha
      · rw [List.mem_singleton] at hb
        subst hb
        exact hta
    split
    · exact h0
    · exact h0

/-- mpesa_callback preserves the committed-state shape: wallets and
transactions change only through deposit; the settlement-table rewrites
touch neither. -/
theorem StateOK_mpesa_cb (d : SendDeps) (st : St) (cb : ParsedCallback)
    (hst : StateOK st) : StateOK (mpesa_callback d st cb) := by
  by_cases hck : cb.checkout_request_id = ""
  · unfold mpesa_callback
    rw [if_pos hck]
    exact hst
  cases hfind : st.mpesa.find?
      (fun m => decide (m.checkout_request_id = some cb.checkout_request_id)) with
  | none =>
    unfold mpesa_callback
    rw [if_neg hck, hfind]
    exact hst
  | some rec =>
    by_cases hpend : rec.status = "PENDING"
    case neg =>
      rw [mpesa_callback_noop_of_terminal d st cb rec hfind hpend]
      exact hst
    case pos =>
      rw [mpesa_callback_pending_eq d st cb rec hck hfind hpend]
      split
      · exact ⟨hst.1, hst.2.1, hst.2.2⟩
      split
      · exact hst
      split
      · exact ⟨hst.1, hst.2.1, hst.2.2⟩
      · rcases hdep : deposit d st rec.user_id cb.amount "KES" with ⟨out, st2⟩
        have hst2 : StateOK st2 :=
          StateOK_deposit_eq d st rec.user_id cb.amount "KES" hst out st2 hdep
        cases out with
        | failure msg =>
          exact ⟨hst2.1, hst2.2.1, hst2.2.2⟩
        | success t1 a1 f1 tt1 =>
          exact ⟨hst2.1, hst2.2.1, hst2.2.2⟩

/-- Falsifies C1 as frozen: a state in which every wallet satisfies
balance >= locked_balance (Bob at 100.00 with 80.00 locked) does not
keep the invariant through a committed reversal approval — the
approval checks only the raw balance, debits Bob by 50.00 and commits
him at balance 50.00 < locked 80.00. -/
theorem wallet_invariant_counterexample :
    WalletsInv revExSt.wallets ∧
    (approve_reversal noDeps revExSt "rev1" "adm2" "n").1 = .ok (some "tx-new") ∧
    ¬ WalletsInv (approve_reversal noDeps revExSt "rev1" "adm2" "n").2.wallets := by
  refine ⟨(show ∀ e ∈ revExSt.wallets, e.2.locked ≤ e.2.balance by decide),
    by decide, ?_⟩
  intro h
  have hbob := h (("bob", "USD"), ⟨5000, 8000⟩) (by decide)
  exact absurd hbob (by decide)

/-- C1 amended: the engine maintains the stronger shape "locked_balance
is 0 and balance is nonnegative" — no code path ever writes a nonzero
locked_balance — and that shape (which implies balance >=
locked_balance) together with unique wallet keys and nonnegative stored
amounts is preserved by every committed operation: send_money, deposit,
withdraw, convert_currency (given nonnegative stored rates and
volatility factors), the M-Pesa callback credit, reversal approval and
rejection.  The invariant as frozen — preservation from an arbitrary
state merely satisfying balance >= locked_balance — fails: reversal
approval checks the raw balance only and can commit a wallet below its
locked amount (see the counterexample). -/
theorem wallet_invariant_spec :
    (∀ ws : Wallets, WalletsOK ws → WalletsInv ws) ∧
    (∀ (d : SendDeps) (st : St) (s p : String) (a : ℚ) (c : String),
      StateOK st → StateOK (send_money d st s p a c).2) ∧
    (∀ (d : SendDeps) (st : St) (u : String) (a : ℚ) (c : String),
      StateOK st → StateOK (deposit d st u a c).2) ∧
    (∀ (d : SendDeps) (st : St) (u : String) (a : ℚ) (c : String),
      StateOK st → StateOK (withdraw d st u a c).2) ∧
    (∀ (d : SendDeps) (st : St) (u f2 t2 : String) (a : ℚ),
      StateOK st →
      (∀ x y r, d.fx.rate x y = some r → 0 ≤ r) →
      (∀ x y, 0 ≤ 1 + d.fx.vol x y) →
      StateOK (convert_currency d st u f2 t2 a).2) ∧
    (∀ (d : SendDeps) (st : St) (cb : ParsedCallback),
      StateOK st → StateOK (mpesa_callback d st cb)) ∧
    (∀ (d : SendDeps) (st : St) (rid aid note : String),
      StateOK st → StateOK (approve_reversal d st rid aid note).2) ∧
    (∀ (st : St) (rid aid note : String),
      StateOK st → StateOK (reject_reversal st rid aid note).2) := by
  refine ⟨?_, ?_, ?_, ?_, ?_, ?_, ?_, ?_⟩
  · intro ws h e he
    rw [(h e he).1]
    exact (h e he).2
  · intro d st s p a c hst
    exact StateOK_send_eq d st s p a c hst _ _ rfl
  · intro d st u a c hst
    exact StateOK_deposit_eq d st u a c hst _ _ rfl
  · intro d st u a c hst
    exact StateOK_withdraw_eq d st u a c hst _ _ rfl
  · intro d st u f2 t2 a hst hrate hvol
    exact StateOK_convert_eq d st u f2 t2 a hst hrate hvol _ _ rfl
  · intro d st cb hst
    exact StateOK_mpesa_cb d st cb hst
  · intro d st rid aid note hst
    exact StateOK_approve_eq d st rid aid note hst _ _ rfl
  · intro st rid aid note hst
    exact StateOK_reject_eq st rid aid note hst _ _ rfl

/-- Witness for C1 amended: each preserved-shape conclusion
instantiated at concrete engine states — the zero-locked reversal state
and the empty state. -/
theorem wallet_invariant_spec_witness :
    WalletsInv revOkSt.wallets ∧
    StateOK (send_money noDeps emptySt "al" "ph" 1 "USD").2 ∧
    StateOK (deposit noDeps emptySt "dave" 5 "USD").2 ∧
    StateOK (withdraw noDeps emptySt "dave" 1 "USD").2 ∧
    StateOK (convert_currency noDeps emptySt "dave" "USD" "EUR" 5).2 ∧
    StateOK (mpesa_callback noDeps emptySt bigCb) ∧
    StateOK (approve_reversal noDeps revOkSt "rev1" "adm2" "w").2 ∧
    StateOK (reject_reversal revOkSt "rev1" "adm2" "w").2 := by
  have hok : StateOK revOkSt :=
    ⟨by decide,
     (show ∀ e ∈ revOkSt.wallets, e.2.locked = 0 ∧ 0 ≤ e.2.balance by decide),
     (show ∀ r ∈ revOkSt.txs, 0 ≤ r.amount by decide)⟩
  have hemp : StateOK emptySt :=
    ⟨by decide,
     (show ∀ e ∈ emptySt.wallets, e.2.locked = 0 ∧ 0 ≤ e.2.balance by decide),
     (show ∀ r ∈ emptySt.txs, 0 ≤ r.amount by decide)⟩
  refine ⟨wallet_invariant_spec.1 revOkSt.wallets
      (show ∀ e ∈ revOkSt.wallets, e.2.locked = 0 ∧ 0 ≤ e.2.balance by decide),
    wallet_invariant_spec.2.1 noDeps emptySt "al" "ph" 1 "USD" hemp,
    wallet_invariant_spec.2.2.1 noDeps emptySt "dave" 5 "USD" hemp,
    wallet_invariant_spec.2.2.2.1 noDeps emptySt "dave" 1 "USD" hemp,
    wallet_invariant_spec.2.2.2.2.1 noDeps emptySt "dave" "USD" "EUR" 5 hemp
      (by intro x y r hxy; simp [noDeps] at hxy)
      (by intro x y; norm_num [noDeps]),
    wallet_invariant_spec.2.2.2.2.2.1 noDeps emptySt bigCb hemp,
    wallet_invariant_spec.2.2.2.2.2.2.1 noDeps revOkSt "rev1" "adm2" "w" hok,
    wallet_invariant_spec.2.2.2.2.2.2.2 revOkSt "rev1" "adm2" "w" hok⟩

end Mint
